import Mathlib

/-!
# Verification of the Renfe GTFS-RT insights backend

A shallow embedding of the core of `apps/backend/src/renfe/renfe.service.ts`,
`renfe-history.service.ts` and `renfe.controller.ts`, together with theorems
settling the specification claims about feed parsing, the insights/correlation
engine, snapshot history storage and the controller's activity predicate.

Modelling conventions:
* JavaScript numbers that hold unix-second timestamps, counts and durations are
  embedded as `Int`/`Nat`; geographic coordinates (which may be fractional) as `ℚ`.
* `x | null` fields are embedded as `Option`; JavaScript truthiness tests
  (`if (v.tripId)`, `if (v.timestamp)`) are embedded exactly, i.e. the empty
  string and the number `0` count as absent.
* JS `Map`/`Set` (insertion ordered) are embedded as association lists / lists
  with first-insertion order, with `Map.get`/`Map.set`/`Set.add` as the
  operations `mapGetD`/`mapSet`/`setAdd` below.
* `Array.prototype.sort` (stable, per ECMAScript) is embedded as
  `List.mergeSort` with the boolean order corresponding to the comparator.
  The default string sort compares UTF-16 code units; we use Lean's `String`
  order (identical on all strings whose characters lie in the basic plane).
-/

/-! ## Data model (the DTO types of `renfe.service.ts`) -/

/-- `RenfeVehiclePositionDto` (renfe.service.ts lines 4-13). -/
structure RenfeVehiclePositionDto where
  id : String
  label : Option String
  latitude : ℚ
  longitude : ℚ
  timestamp : Option Int
  tripId : Option String
  routeId : Option String
  currentStatus : Option String
deriving DecidableEq, Repr

/-- `RenfeAlertInformedEntityDto` (lines 15-20). -/
structure RenfeAlertInformedEntityDto where
  agencyId : Option String
  routeId : Option String
  tripId : Option String
  stopId : Option String
deriving DecidableEq, Repr

/-- `RenfeAlertDto` (lines 22-32); the source field `end` is embedded as `end_`
(`end` is a Lean keyword). -/
structure RenfeAlertDto where
  id : String
  cause : Option String
  effect : Option String
  header : Option String
  description : Option String
  url : Option String
  start : Option Int
  end_ : Option Int
  informedEntities : List RenfeAlertInformedEntityDto
deriving DecidableEq, Repr

/-- `RenfeCountByKeyDto` (lines 34-37). -/
structure RenfeCountByKeyDto where
  key : String
  count : Nat
deriving DecidableEq, Repr

/-- `RenfeRouteSummaryDto` (lines 39-46). -/
structure RenfeRouteSummaryDto where
  routeId : String
  vehicleCount : Nat
  alertCount : Nat
  activeAlertCount : Nat
  effects : List String
  lastVehicleUpdate : Option Int
deriving DecidableEq, Repr

/-- `RenfeAlertTimelineItemDto` (lines 48-57). -/
structure RenfeAlertTimelineItemDto where
  alertId : String
  header : Option String
  cause : Option String
  effect : Option String
  start : Option Int
  end_ : Option Int
  isActiveNow : Bool
  durationMinutes : Option Int
deriving DecidableEq, Repr

/-- `RenfeAlertVehicleCorrelationDto` (lines 59-71). -/
structure RenfeAlertVehicleCorrelationDto where
  alertId : String
  header : Option String
  cause : Option String
  effect : Option String
  start : Option Int
  end_ : Option Int
  isActiveNow : Bool
  matchedVehicleIds : List String
  matchedTripIds : List String
  matchedRouteIds : List String
  matchedVehicleCount : Nat
deriving DecidableEq, Repr

/-- The `totals` record of `RenfeInsightsDto` (lines 75-83). -/
structure RenfeTotals where
  vehicles : Nat
  alerts : Nat
  activeAlerts : Nat
  alertsWithMatches : Nat
  vehiclesMatched : Nat
  uniqueRoutes : Nat
  routesWithAlerts : Nat
deriving DecidableEq, Repr

/-- `RenfeInsightsDto` (lines 73-92). -/
structure RenfeInsightsDto where
  generatedAt : Int
  totals : RenfeTotals
  alertsByEffect : List RenfeCountByKeyDto
  alertsByCause : List RenfeCountByKeyDto
  vehiclesByStatus : List RenfeCountByKeyDto
  alertsByHour : List RenfeCountByKeyDto
  alertDurationDistribution : List RenfeCountByKeyDto
  routeSummaries : List RenfeRouteSummaryDto
  alertTimeline : List RenfeAlertTimelineItemDto
  correlations : List RenfeAlertVehicleCorrelationDto
deriving DecidableEq, Repr

/-! ## JS collection primitives

Association-list embeddings of the insertion-ordered JS `Map` and `Set`. -/

/-- `Set.add`: append the element unless already present (JS sets keep
first-insertion order). -/
def setAdd (s : List String) (x : String) : List String :=
  if x ∈ s then s else s ++ [x]

/-- `Map.get(k) ?? d`: the value at the first (unique, in all our uses)
occurrence of key `k`, defaulting to `d`. -/
def mapGetD {β : Type} : List (String × β) → String → β → β
  | [], _, d => d
  | (k', v) :: rest, k, d => if k' = k then v else mapGetD rest k d

/-- `Map.set(k, v)`: replace the value at the first occurrence of `k` in place,
or append a new binding (JS maps keep first-insertion key order). -/
def mapSet {β : Type} : List (String × β) → String → β → List (String × β)
  | [], k, v => [(k, v)]
  | (k', v') :: rest, k, v =>
    if k' = k then (k, v) :: rest else (k', v') :: mapSet rest k v

/-! ## Pure helpers of `renfe.service.ts` -/

/-- The grouping step of `countByKey` (loop body, lines 202-205):
`map.set(key, (map.get(key) ?? 0) + 1)` with `key = v ?? "UNKNOWN"`. -/
def countByKeyStep (m : List (String × Nat)) (v : Option String) :
    List (String × Nat) :=
  let key := v.getD "UNKNOWN"
  mapSet m key (mapGetD m key 0 + 1)

/-- `countByKey` (lines 200-210): group nullable keys, substituting `"UNKNOWN"`
for null, then sort descending by count (stable, as JS `sort` is). -/
def countByKey (values : List (Option String)) : List RenfeCountByKeyDto :=
  let m := values.foldl countByKeyStep ([] : List (String × Nat))
  (m.map fun p => RenfeCountByKeyDto.mk p.1 p.2).mergeSort
    (fun a b => decide (b.count ≤ a.count))

/-- `isActiveAt` (lines 212-216). -/
def isActiveAt (start end_ : Option Int) (nowSeconds : Int) : Bool :=
  let started : Bool := match start with
    | none => true
    | some s => decide (s ≤ nowSeconds)
  let notEnded : Bool := match end_ with
    | none => true
    | some e => decide (nowSeconds ≤ e)
  started && notEnded

/-- `computeDurationMinutes` (lines 218-227).  `Math.round(diffSeconds / 60)`
on exact integer input is the round-half-up `round` on `ℚ`. -/
def computeDurationMinutes (start end_ : Option Int) (nowSeconds : Int) :
    Option Int :=
  match start with
  | none => none
  | some s =>
    let endTime := end_.getD nowSeconds
    let diffSeconds := endTime - s
    if 0 < diffSeconds then some (round ((diffSeconds : ℚ) / 60)) else none

/-- `getDurationBucket` (lines 229-237). -/
def getDurationBucket (minutes : Option Int) : String :=
  match minutes with
  | none => "Unknown"
  | some m =>
    if m < 30 then "< 30min"
    else if m < 60 then "30-60min"
    else if m < 120 then "1-2h"
    else if m < 240 then "2-4h"
    else if m < 480 then "4-8h"
    else "> 8h"

/-- Two-digit zero padding of an hour value, as
`hour.toString().padStart(2, "0")`. -/
def padHour (h : Int) : String :=
  if h < 10 then "0" ++ toString h else toString h

/-- `getHourFromTimestamp` (lines 239-244).  `new Date(ts*1000).getHours()` is
the hour of day in the server's local time zone; the time zone is modelled as
UTC, so the hour is `(ts / 3600) mod 24` with floor division. -/
def getHourFromTimestamp (ts : Option Int) : String :=
  match ts with
  | none => "Unknown"
  | some t => padHour ((t.fdiv 3600).emod 24) ++ ":00"

/-! ## The insights engine (`RenfeService.getInsights`, lines 324-481)

The network fetches are factored out: `getInsights` below is the pure
computation applied to the already-fetched vehicle and alert lists, with
`generatedAt` standing for `Math.floor(Date.now() / 1000)`. -/

/-- The three vehicle indices built in lines 330-332. -/
structure VehicleIndices where
  vehiclesByTripId : List (String × List String)
  vehiclesByRouteId : List (String × List String)
  vehicleTimestampsByRoute : List (String × List Int)
deriving Repr

/-- One iteration of the indexing loop (lines 334-352).  `if (v.tripId)`,
`if (v.routeId)` and `if (v.timestamp)` are JS truthiness tests: the empty
string and the timestamp `0` are skipped. -/
def indexStep (acc : VehicleIndices) (v : RenfeVehiclePositionDto) :
    VehicleIndices :=
  let acc1 := match v.tripId with
    | some t =>
      if t = "" then acc
      else
        { acc with
          vehiclesByTripId :=
            mapSet acc.vehiclesByTripId t
              (setAdd (mapGetD acc.vehiclesByTripId t []) v.id) }
    | none => acc
  match v.routeId with
  | some r =>
    if r = "" then acc1
    else
      let acc2 :=
        { acc1 with
          vehiclesByRouteId :=
            mapSet acc1.vehiclesByRouteId r
              (setAdd (mapGetD acc1.vehiclesByRouteId r []) v.id) }
      match v.timestamp with
      | some ts =>
        if ts = 0 then acc2
        else
          { acc2 with
            vehicleTimestampsByRoute :=
              mapSet acc2.vehicleTimestampsByRoute r
                (mapGetD acc2.vehicleTimestampsByRoute r [] ++ [ts]) }
      | none => acc2
  | none => acc1

/-- The whole indexing loop over the vehicle list. -/
def buildIndices (vehicles : List RenfeVehiclePositionDto) : VehicleIndices :=
  vehicles.foldl indexStep ⟨[], [], []⟩

/-- The sort used for matched id lists, `[...set].sort()`: default JS string
sort (ascending). -/
def sortStrings (l : List String) : List String :=
  l.mergeSort (fun a b => decide (a ≤ b))

/-- The trip ids named by an alert's informed entities (lines 359-362,
`if (ie.tripId) tripIds.add(ie.tripId)`). -/
def alertTripIds (a : RenfeAlertDto) : List String :=
  a.informedEntities.foldl
    (fun s ie => match ie.tripId with
      | some t => if t = "" then s else setAdd s t
      | none => s) []

/-- The route ids named by an alert's informed entities (lines 359-362). -/
def alertRouteIds (a : RenfeAlertDto) : List String :=
  a.informedEntities.foldl
    (fun s ie => match ie.routeId with
      | some r => if r = "" then s else setAdd s r
      | none => s) []

/-- Union the vehicle-id sets stored in index `m` under `keys` into `init`
(lines 365-374; a missing key contributes nothing, like the `if (!set)
continue`). -/
def unionIndexed (m : List (String × List String)) (keys init : List String) :
    List String :=
  keys.foldl (fun s k => (mapGetD m k []).foldl setAdd s) init

/-- The correlation built for one alert (the `alerts.map` body, lines
355-391). -/
def mkCorrelation (idx : VehicleIndices) (generatedAt : Int)
    (a : RenfeAlertDto) : RenfeAlertVehicleCorrelationDto :=
  let tripIds := alertTripIds a
  let routeIds := alertRouteIds a
  let matchedVehicles :=
    unionIndexed idx.vehiclesByRouteId routeIds
      (unionIndexed idx.vehiclesByTripId tripIds [])
  let matchedVehicleIds := sortStrings matchedVehicles
  { alertId := a.id
    header := a.header
    cause := a.cause
    effect := a.effect
    start := a.start
    end_ := a.end_
    isActiveNow := isActiveAt a.start a.end_ generatedAt
    matchedVehicleIds := matchedVehicleIds
    matchedTripIds := sortStrings tripIds
    matchedRouteIds := sortStrings routeIds
    matchedVehicleCount := matchedVehicleIds.length }

/-- The `allRouteIds` set (lines 402-410): route ids observed in vehicles,
then in alert informed entities, with JS-truthy (non-empty) ids only. -/
def allRouteIdsOf (vehicles : List RenfeVehiclePositionDto)
    (alerts : List RenfeAlertDto) : List String :=
  let s := vehicles.foldl
    (fun s v => match v.routeId with
      | some r => if r = "" then s else setAdd s r
      | none => s) []
  alerts.foldl
    (fun s a =>
      a.informedEntities.foldl
        (fun s ie => match ie.routeId with
          | some r => if r = "" then s else setAdd s r
          | none => s) s) s

/-- The route summary built for one route id (the map body of lines
412-435). -/
def mkRouteSummary (idx : VehicleIndices) (alerts : List RenfeAlertDto)
    (generatedAt : Int) (routeId : String) : RenfeRouteSummaryDto :=
  let routeVehicles := mapGetD idx.vehiclesByRouteId routeId []
  let routeAlerts := alerts.filter fun a =>
    a.informedEntities.any fun ie => ie.routeId == some routeId
  let activeRouteAlerts := routeAlerts.filter fun a =>
    isActiveAt a.start a.end_ generatedAt
  let effects := (routeAlerts.filterMap fun a => a.effect).foldl setAdd []
  let timestamps := mapGetD idx.vehicleTimestampsByRoute routeId []
  { routeId := routeId
    vehicleCount := routeVehicles.length
    alertCount := routeAlerts.length
    activeAlertCount := activeRouteAlerts.length
    effects := effects
    lastVehicleUpdate := timestamps.max? }

/-- The alert-timeline item for one alert (lines 441-451). -/
def mkTimelineItem (generatedAt : Int) (a : RenfeAlertDto) :
    RenfeAlertTimelineItemDto :=
  { alertId := a.id
    header := a.header
    cause := a.cause
    effect := a.effect
    start := a.start
    end_ := a.end_
    isActiveNow := isActiveAt a.start a.end_ generatedAt
    durationMinutes := computeDurationMinutes a.start a.end_ generatedAt }

/-- `RenfeService.getInsights` (lines 324-481) as a pure function of the
fetched vehicle and alert lists and the reference instant. -/
def getInsights (vehicles : List RenfeVehiclePositionDto)
    (alerts : List RenfeAlertDto) (generatedAt : Int) : RenfeInsightsDto :=
  let idx := buildIndices vehicles
  let correlations := alerts.map (mkCorrelation idx generatedAt)
  let vehiclesMatchedSet :=
    correlations.foldl (fun s c => c.matchedVehicleIds.foldl setAdd s) []
  let activeAlerts := (correlations.filter fun c => c.isActiveNow).length
  let alertsWithMatches :=
    (correlations.filter fun c => decide (0 < c.matchedVehicleCount)).length
  let allRouteIds := allRouteIdsOf vehicles alerts
  let routeSummaries :=
    (allRouteIds.map (mkRouteSummary idx alerts generatedAt)).mergeSort
      (fun a b => decide (b.alertCount ≤ a.alertCount))
  let routesWithAlerts :=
    (routeSummaries.filter fun r => decide (0 < r.alertCount)).length
  let alertTimeline :=
    (alerts.map (mkTimelineItem generatedAt)).mergeSort
      (fun a b => decide (b.start.getD 0 ≤ a.start.getD 0))
  let alertsByHour :=
    countByKey (alerts.map fun a => some (getHourFromTimestamp a.start))
  let durations :=
    alerts.map fun a => computeDurationMinutes a.start a.end_ generatedAt
  let alertDurationDistribution :=
    countByKey (durations.map fun d => some (getDurationBucket d))
  { generatedAt := generatedAt
    totals :=
      { vehicles := vehicles.length
        alerts := alerts.length
        activeAlerts := activeAlerts
        alertsWithMatches := alertsWithMatches
        vehiclesMatched := vehiclesMatchedSet.length
        uniqueRoutes := allRouteIds.length
        routesWithAlerts := routesWithAlerts }
    alertsByEffect := countByKey (alerts.map fun a => a.effect)
    alertsByCause := countByKey (alerts.map fun a => a.cause)
    vehiclesByStatus := countByKey (vehicles.map fun v => v.currentStatus)
    alertsByHour := alertsByHour
    alertDurationDistribution := alertDurationDistribution
    routeSummaries := routeSummaries
    alertTimeline := alertTimeline
    correlations := correlations.mergeSort
      (fun a b => decide (b.matchedVehicleCount ≤ a.matchedVehicleCount)) }

/-! ## History persistence (`renfe-history.service.ts`)

The filesystem is embedded as a key-value blob store: `files` maps a filename
to the stored snapshot value (JSON serialisation round-trips are identity on
the stored record), and `indexFile` is the content of `index.json` when that
file exists.  `Date.now()` and `Math.random()` are passed in as the
`timestampNow`/`randSuffix` parameters. -/

/-- The reduced vehicle record persisted in a snapshot (lines 17-25 and the
`vehicles.map` of lines 86-94). -/
structure ReducedVehicle where
  id : String
  label : Option String
  routeId : Option String
  tripId : Option String
  latitude : ℚ
  longitude : ℚ
  currentStatus : Option String
deriving DecidableEq, Repr

/-- The reduced alert record persisted in a snapshot (lines 26-33 and the
`alerts.map` of lines 95-102). -/
structure ReducedAlert where
  id : String
  header : Option String
  effect : Option String
  cause : Option String
  start : Option Int
  end_ : Option Int
deriving DecidableEq, Repr

/-- `HistorySnapshot` (lines 10-34), as returned to callers. -/
structure HistorySnapshot where
  id : String
  timestamp : Int
  totals : RenfeTotals
  alertsByEffect : List RenfeCountByKeyDto
  alertsByCause : List RenfeCountByKeyDto
  vehiclesByStatus : List RenfeCountByKeyDto
  vehicles : List ReducedVehicle
  alerts : List ReducedAlert
deriving DecidableEq, Repr

/-- The on-disk snapshot blob.  `id`, `vehicles` and `alerts` are optional to
model legacy blobs, which `loadSnapshotById` defends against with
`snapshot.id ?? id`, `snapshot.vehicles ?? []`, `snapshot.alerts ?? []`. -/
structure StoredSnapshot where
  id : Option String
  timestamp : Int
  totals : RenfeTotals
  alertsByEffect : List RenfeCountByKeyDto
  alertsByCause : List RenfeCountByKeyDto
  vehiclesByStatus : List RenfeCountByKeyDto
  vehicles : Option (List ReducedVehicle)
  alerts : Option (List ReducedAlert)
deriving DecidableEq, Repr

/-- One entry of `HistoryIndex` (lines 36-44); `id`, `vehicleCount` and
`alertCount` are optional for backward compatibility. -/
structure HistoryIndexEntry where
  id : Option String
  timestamp : Int
  filename : String
  vehicleCount : Option Nat
  alertCount : Option Nat
deriving DecidableEq, Repr

/-- `HistoryIndex` (lines 36-44). -/
structure HistoryIndex where
  snapshots : List HistoryIndexEntry
deriving DecidableEq, Repr

/-- The state of the history data directory. -/
structure HistoryState where
  files : List (String × StoredSnapshot)
  indexFile : Option HistoryIndex
deriving DecidableEq, Repr

/-- `fs.existsSync` on a snapshot file. -/
def fileExists (files : List (String × StoredSnapshot)) (k : String) : Bool :=
  files.any fun p => p.1 == k

/-- `fs.promises.readFile` + `JSON.parse` on a snapshot file (`none` when the
file does not exist, which the source turns into the caught-error path). -/
def fsRead (files : List (String × StoredSnapshot)) (k : String) :
    Option StoredSnapshot :=
  (files.find? fun p => p.1 == k).map fun p => p.2

/-- `fs.promises.writeFile`: overwrite or create the blob at `k`. -/
def fsWrite (files : List (String × StoredSnapshot)) (k : String)
    (v : StoredSnapshot) : List (String × StoredSnapshot) :=
  mapSet files k v

/-- `fs.promises.unlink`: remove the blob at `k`. -/
def fsDelete (files : List (String × StoredSnapshot)) (k : String) :
    List (String × StoredSnapshot) :=
  files.filter fun p => decide (p.1 ≠ k)

/-- `loadIndex` (lines 131-141): the parsed `index.json`, or an empty index
when the file does not exist. -/
def loadIndex (st : HistoryState) : HistoryIndex :=
  st.indexFile.getD ⟨[]⟩

/-- `v => ({id, label, routeId, tripId, latitude, longitude, currentStatus})`
(lines 86-94). -/
def reduceVehicle (v : RenfeVehiclePositionDto) : ReducedVehicle :=
  ⟨v.id, v.label, v.routeId, v.tripId, v.latitude, v.longitude,
    v.currentStatus⟩

/-- `a => ({id, header, effect, cause, start, end})` (lines 95-102). -/
def reduceAlert (a : RenfeAlertDto) : ReducedAlert :=
  ⟨a.id, a.header, a.effect, a.cause, a.start, a.end_⟩

/-- `storeSnapshot` (lines 67-126).  `timestampNow` stands for
`Math.floor(Date.now() / 1000)` and `randSuffix` for
`Math.random().toString(36).slice(2, 10)`; the returned pair is the new id and
the updated directory state. -/
def storeSnapshot (st : HistoryState) (insights : RenfeInsightsDto)
    (vehicles : List RenfeVehiclePositionDto) (alerts : List RenfeAlertDto)
    (timestampNow : Int) (randSuffix : String) : String × HistoryState :=
  let id := toString timestampNow ++ "-" ++ randSuffix
  let filename := "snapshot-" ++ id ++ ".json"
  let snapshot : StoredSnapshot :=
    { id := some id
      timestamp := timestampNow
      totals := insights.totals
      alertsByEffect := insights.alertsByEffect
      alertsByCause := insights.alertsByCause
      vehiclesByStatus := insights.vehiclesByStatus
      vehicles := some (vehicles.map reduceVehicle)
      alerts := some (alerts.map reduceAlert) }
  let files := fsWrite st.files filename snapshot
  let index := loadIndex st
  let newIndex : HistoryIndex :=
    ⟨index.snapshots ++
      [{ id := some id
         timestamp := timestampNow
         filename := filename
         vehicleCount := some vehicles.length
         alertCount := some alerts.length }]⟩
  (id, { files := files, indexFile := some newIndex })

/-- `String.prototype.includes`. -/
def strContains (s pat : String) : Bool :=
  if pat = "" then true else decide (1 < (s.splitOn pat).length)

/-- `Number.parseInt(id, 10)` restricted to what the service needs: an
optional sign followed by leading decimal digits (`none` for `NaN`; hexadecimal
input is not modelled). -/
def jsParseInt (s : String) : Option Int :=
  let t := s.trim
  let (sign, body) :=
    if t.startsWith "-" then ((-1 : Int), t.drop 1)
    else if t.startsWith "+" then (1, t.drop 1) else (1, t)
  let digits := body.toList.takeWhile Char.isDigit
  if digits = [] then none
  else some (sign * (digits.foldl (fun n c => n * 10 + (c.toNat - 48)) 0 : Nat))

/-- `loadSnapshotById` (lines 146-186): resolve the index entry by id, then by
filename, then by timestamp; read its blob; apply the backward-compatibility
fallbacks. -/
def loadSnapshotById (st : HistoryState) (id : String) :
    Option HistorySnapshot :=
  let index := loadIndex st
  let entry := index.snapshots.find? fun s => s.id == some id
  let entry := match entry with
    | some e => some e
    | none =>
      index.snapshots.find? fun s =>
        s.filename == "snapshot-" ++ id ++ ".json" || strContains s.filename id
  let entry := match entry with
    | some e => some e
    | none =>
      match jsParseInt id with
      | some ts => index.snapshots.find? fun s => s.timestamp == ts
      | none => none
  match entry with
  | none => none
  | some e =>
    match fsRead st.files e.filename with
    | none => none
    | some snap =>
      some
        { id := snap.id.getD id
          timestamp := snap.timestamp
          totals := snap.totals
          alertsByEffect := snap.alertsByEffect
          alertsByCause := snap.alertsByCause
          vehiclesByStatus := snap.vehiclesByStatus
          vehicles := snap.vehicles.getD []
          alerts := snap.alerts.getD [] }

/-- `cleanupOldSnapshots` (lines 356-392): delete the blobs of index entries
older than the cutoff (counting only blobs that existed), keep the rest, and
rewrite the index.  `now` stands for `Math.floor(Date.now() / 1000)`. -/
def cleanupOldSnapshots (st : HistoryState) (keepDays : Int) (now : Int) :
    Nat × HistoryState :=
  let cutoffTimestamp := now - keepDays * 24 * 60 * 60
  let index := loadIndex st
  let toDelete := index.snapshots.filter fun s =>
    decide (s.timestamp < cutoffTimestamp)
  let toKeep := index.snapshots.filter fun s =>
    decide (cutoffTimestamp ≤ s.timestamp)
  let deleted := toDelete.foldl
    (fun (acc : List (String × StoredSnapshot) × Nat) entry =>
      if fileExists acc.1 entry.filename then
        (fsDelete acc.1 entry.filename, acc.2 + 1)
      else acc)
    (st.files, 0)
  (deleted.2, { files := deleted.1, indexFile := some ⟨toKeep⟩ })

/-! ## The history controller (`renfe.controller.ts`, `getSnapshotById`) -/

/-- The vehicle view of the `GET renfe/history/snapshots/:id` response
(lines 113-119, 139-145). -/
structure SnapshotVehicleView where
  id : String
  label : Option String
  routeId : Option String
  latitude : ℚ
  longitude : ℚ
deriving DecidableEq, Repr

/-- The alert view of the `GET renfe/history/snapshots/:id` response
(lines 120-125, 146-154). -/
structure SnapshotAlertView where
  id : String
  header : Option String
  effect : Option String
  isActive : Bool
deriving DecidableEq, Repr

/-- The `GET renfe/history/snapshots/:id` response body (lines 108-126). -/
structure SnapshotByIdResponse where
  id : String
  timestamp : Int
  vehicleCount : Nat
  alertCount : Nat
  vehicles : List SnapshotVehicleView
  alerts : List SnapshotAlertView
deriving DecidableEq, Repr

/-- The controller's activity test for a snapshot alert (lines 150-153):
`a.start !== null && a.start <= now && (a.end === null || a.end > now)`. -/
def snapshotAlertIsActive (start end_ : Option Int) (now : Int) : Bool :=
  match start with
  | none => false
  | some s =>
    decide (s ≤ now) &&
      (match end_ with
        | none => true
        | some e => decide (now < e))

/-- The response construction of `RenfeController.getSnapshotById`
(lines 133-155), given the loaded snapshot; `now` stands for
`Math.floor(Date.now() / 1000)` taken at request time. -/
def buildSnapshotByIdResponse (snapshot : HistorySnapshot) (now : Int) :
    SnapshotByIdResponse :=
  { id := snapshot.id
    timestamp := snapshot.timestamp
    vehicleCount := snapshot.vehicles.length
    alertCount := snapshot.alerts.length
    vehicles := snapshot.vehicles.map fun v =>
      ⟨v.id, v.label, v.routeId, v.latitude, v.longitude⟩
    alerts := snapshot.alerts.map fun a =>
      ⟨a.id, a.header, a.effect, snapshotAlertIsActive a.start a.end_ now⟩ }

/-- `RenfeController.getSnapshotById` on a resolvable id: load, then build the
response (the `NotFoundException` path is the `none` case). -/
def getSnapshotById (st : HistoryState) (id : String) (now : Int) :
    Option SnapshotByIdResponse :=
  (loadSnapshotById st id).map fun s => buildSnapshotByIdResponse s now

/-! ## Feed parsing (`zod` schemas, lines 94-188, and the fetch methods)

Raw upstream JSON is embedded as the `Json` inductive below.  Each `zod`
schema becomes a function `Json → Option _` (`none` = `safeParse` failure);
`.passthrough()` means unknown members are ignored, which the field-projection
style of the parsers matches.  `z.coerce.number()` applies JavaScript
`Number()` to the input; `Number` on nested arrays/objects and on exotic
string forms (hexadecimal, exponent) is not modelled and treated as `NaN`. -/

/-- Untyped JSON values; numbers are exact rationals. -/
inductive Json where
  | null : Json
  | bool : Bool → Json
  | num : ℚ → Json
  | str : String → Json
  | arr : List Json → Json
  | obj : List (String × Json) → Json

/-- Member access on a JSON object (`JSON.parse` keeps the last of duplicate
keys); `none` for a missing member or a non-object. -/
def Json.getField (j : Json) (k : String) : Option Json :=
  match j with
  | .obj fields =>
    fields.foldl (fun acc p => if p.1 = k then some p.2 else acc) none
  | _ => none

/-- Digits-only check for the decimal-string part of `Number()`. -/
def allDigits (cs : List Char) : Bool :=
  cs.all Char.isDigit

/-- Value of a (possibly empty) digit string. -/
def natOfDigits (cs : List Char) : Nat :=
  cs.foldl (fun n c => n * 10 + (c.toNat - 48)) 0

/-- JavaScript `Number()` on a string: trimmed; empty means `0`; otherwise an
optional sign and a decimal literal `digits[.digits]`.  (`none` = `NaN`.) -/
def jsStringToNumber (s : String) : Option ℚ :=
  let t := s.trim
  if t = "" then some 0
  else
    let (sign, body) :=
      if t.startsWith "-" then ((-1 : ℚ), t.drop 1)
      else if t.startsWith "+" then (1, t.drop 1) else (1, t)
    match body.splitOn "." with
    | [ip] =>
      if ip ≠ "" ∧ allDigits ip.toList then
        some (sign * (natOfDigits ip.toList : ℚ))
      else none
    | [ip, fp] =>
      if (ip ≠ "" ∨ fp ≠ "") ∧ allDigits ip.toList ∧ allDigits fp.toList then
        some (sign *
          ((natOfDigits ip.toList : ℚ) +
            (natOfDigits fp.toList : ℚ) / (10 : ℚ) ^ fp.length))
      else none
    | _ => none

/-- JavaScript `Number()` as used by `z.coerce.number()`; `none` is `NaN`,
which `z.number()` rejects. -/
def coerceNumber (j : Json) : Option ℚ :=
  match j with
  | .num q => some q
  | .str s => jsStringToNumber s
  | .bool b => some (if b then 1 else 0)
  | .null => some 0
  | .arr _ => none
  | .obj _ => none

/-- `z.coerce.number().int().nonnegative()`. -/
def parseIntNonneg (j : Json) : Option Int :=
  match coerceNumber j with
  | some q => if q.den = 1 ∧ 0 ≤ q then some q.num else none
  | none => none

/-- `z.string()`. -/
def parseAnyString (j : Json) : Option String :=
  match j with
  | .str s => some s
  | _ => none

/-- `z.string().min(1)`. -/
def parseStringMin1 (j : Json) : Option String :=
  match j with
  | .str s => if s = "" then none else some s
  | _ => none

/-- An `.optional()` member: absent is fine (`some none`); a present member
(including `null`, which `.optional()` does not excuse) must parse. -/
def optField {α : Type} (j : Json) (k : String) (p : Json → Option α) :
    Option (Option α) :=
  match j.getField k with
  | none => some none
  | some v => (p v).map some

/-- A required member: must be present and parse.  (A missing member is
`undefined`, which every inner schema used here rejects.) -/
def reqField {α : Type} (j : Json) (k : String) (p : Json → Option α) :
    Option α :=
  match j.getField k with
  | none => none
  | some v => p v

/-- A `z.array(inner).default([])` member: absent means `[]`; present must be
an array whose every element parses. -/
def arrFieldD {α : Type} (j : Json) (k : String) (p : Json → Option α) :
    Option (List α) :=
  match j.getField k with
  | none => some []
  | some (.arr xs) => xs.mapM p
  | some _ => none

/-- The record parsed by `PositionSchema` (lines 94-97). -/
structure FeedPosition where
  latitude : ℚ
  longitude : ℚ
deriving DecidableEq, Repr

/-- `PositionSchema` (lines 94-97): coerced numbers within geographic
bounds. -/
def parsePosition (j : Json) : Option FeedPosition :=
  match j with
  | .obj _ =>
    match reqField j "latitude" coerceNumber,
        reqField j "longitude" coerceNumber with
    | some lat, some lon =>
      if (-90 ≤ lat ∧ lat ≤ 90) ∧ (-180 ≤ lon ∧ lon ≤ 180) then
        some ⟨lat, lon⟩
      else none
    | _, _ => none
  | _ => none

/-- The `trip` sub-object of `EntitySchema` (lines 107-112). -/
structure FeedTripDesc where
  tripId : Option String
  routeId : Option String
deriving DecidableEq, Repr

/-- The `trip` sub-schema of `EntitySchema`. -/
def parseTripDesc (j : Json) : Option FeedTripDesc :=
  match j with
  | .obj _ =>
    match optField j "tripId" parseStringMin1,
        optField j "routeId" parseStringMin1 with
    | some t, some r => some ⟨t, r⟩
    | _, _ => none
  | _ => none

/-- The inner `vehicle` descriptor of `EntitySchema` (lines 113-118). -/
structure FeedVehicleDesc where
  id : Option String
  label : Option String
deriving DecidableEq, Repr

/-- The inner `vehicle` sub-schema of `EntitySchema`. -/
def parseVehicleDesc (j : Json) : Option FeedVehicleDesc :=
  match j with
  | .obj _ =>
    match optField j "id" parseStringMin1,
        optField j "label" parseStringMin1 with
    | some i, some l => some ⟨i, l⟩
    | _, _ => none
  | _ => none

/-- The `vehicle` body of `EntitySchema` (lines 102-120). -/
structure FeedVehicleInfo where
  position : Option FeedPosition
  timestamp : Option Int
  currentStatus : Option String
  trip : Option FeedTripDesc
  vehicle : Option FeedVehicleDesc
deriving DecidableEq, Repr

/-- The `vehicle` sub-schema of `EntitySchema`. -/
def parseVehicleInfo (j : Json) : Option FeedVehicleInfo :=
  match j with
  | .obj _ =>
    match optField j "position" parsePosition,
        optField j "timestamp" parseIntNonneg,
        optField j "currentStatus" parseStringMin1,
        optField j "trip" parseTripDesc,
        optField j "vehicle" parseVehicleDesc with
    | some pos, some ts, some cs, some tr, some vd =>
      some ⟨pos, ts, cs, tr, vd⟩
    | _, _, _, _, _ => none
  | _ => none

/-- The record parsed by `EntitySchema` (lines 99-122). -/
structure FeedEntity where
  id : String
  vehicle : Option FeedVehicleInfo
deriving DecidableEq, Repr

/-- `EntitySchema` (lines 99-122). -/
def parseEntity (j : Json) : Option FeedEntity :=
  match j with
  | .obj _ =>
    match reqField j "id" parseStringMin1,
        optField j "vehicle" parseVehicleInfo with
    | some i, some v => some ⟨i, v⟩
    | _, _ => none
  | _ => none

/-- `FeedSchema` (lines 124-128): an object whose `entity` member (defaulting
to `[]`) is an array in which every entity validates — one bad entity fails
the whole parse, exactly as `z.array` does. -/
def parseFeed (j : Json) : Option (List FeedEntity) :=
  match j with
  | .obj _ => arrFieldD j "entity" parseEntity
  | _ => none

/-- A single translation item (lines 133-140). -/
structure TranslationItem where
  text : Option String
  language : Option String
deriving DecidableEq, Repr

/-- The element schema of `TranslatedTextSchema.translation`. -/
def parseTranslationItem (j : Json) : Option TranslationItem :=
  match j with
  | .obj _ =>
    match optField j "text" parseAnyString,
        optField j "language" parseAnyString with
    | some t, some l => some ⟨t, l⟩
    | _, _ => none
  | _ => none

/-- The record parsed by `TranslatedTextSchema` (lines 130-143). -/
structure TranslatedText where
  translation : List TranslationItem
deriving DecidableEq, Repr

/-- `TranslatedTextSchema` (lines 130-143). -/
def parseTranslatedText (j : Json) : Option TranslatedText :=
  match j with
  | .obj _ => (arrFieldD j "translation" parseTranslationItem).map (⟨·⟩)
  | _ => none

/-- The record parsed by `AlertActivePeriodSchema` (lines 145-150). -/
structure AlertActivePeriod where
  start : Option Int
  end_ : Option Int
deriving DecidableEq, Repr

/-- `AlertActivePeriodSchema` (lines 145-150); the source member `end` is
embedded as `end_`. -/
def parseActivePeriod (j : Json) : Option AlertActivePeriod :=
  match j with
  | .obj _ =>
    match optField j "start" parseIntNonneg,
        optField j "end" parseIntNonneg with
    | some s, some e => some ⟨s, e⟩
    | _, _ => none
  | _ => none

/-- The `trip` sub-object of `AlertInformedEntitySchema` (lines 157-162). -/
structure AlertTripRef where
  tripId : Option String
deriving DecidableEq, Repr

/-- The `trip` sub-schema of `AlertInformedEntitySchema`. -/
def parseAlertTripRef (j : Json) : Option AlertTripRef :=
  match j with
  | .obj _ =>
    match optField j "tripId" parseStringMin1 with
    | some t => some ⟨t⟩
    | none => none
  | _ => none

/-- The record parsed by `AlertInformedEntitySchema` (lines 152-164). -/
structure AlertInformedEntity where
  agencyId : Option String
  routeId : Option String
  stopId : Option String
  trip : Option AlertTripRef
deriving DecidableEq, Repr

/-- `AlertInformedEntitySchema` (lines 152-164). -/
def parseInformedEntity (j : Json) : Option AlertInformedEntity :=
  match j with
  | .obj _ =>
    match optField j "agencyId" parseStringMin1,
        optField j "routeId" parseStringMin1,
        optField j "stopId" parseStringMin1,
        optField j "trip" parseAlertTripRef with
    | some a, some r, some s, some t => some ⟨a, r, s, t⟩
    | _, _, _, _ => none
  | _ => none

/-- The `alert` body of `AlertsEntitySchema` (lines 169-180). -/
structure AlertBody where
  cause : Option String
  effect : Option String
  headerText : Option TranslatedText
  descriptionText : Option TranslatedText
  url : Option TranslatedText
  activePeriod : List AlertActivePeriod
  informedEntity : List AlertInformedEntity
deriving DecidableEq, Repr

/-- The `alert` sub-schema of `AlertsEntitySchema`. -/
def parseAlertBody (j : Json) : Option AlertBody :=
  match j with
  | .obj _ =>
    match optField j "cause" parseStringMin1,
        optField j "effect" parseStringMin1,
        optField j "headerText" parseTranslatedText,
        optField j "descriptionText" parseTranslatedText,
        optField j "url" parseTranslatedText,
        arrFieldD j "activePeriod" parseActivePeriod,
        arrFieldD j "informedEntity" parseInformedEntity with
    | some c, some e, some h, some d, some u, some ap, some ie =>
      some ⟨c, e, h, d, u, ap, ie⟩
    | _, _, _, _, _, _, _ => none
  | _ => none

/-- The record parsed by `AlertsEntitySchema` (lines 166-182). -/
structure AlertsFeedEntity where
  id : String
  alert : Option AlertBody
deriving DecidableEq, Repr

/-- `AlertsEntitySchema` (lines 166-182). -/
def parseAlertsEntity (j : Json) : Option AlertsFeedEntity :=
  match j with
  | .obj _ =>
    match reqField j "id" parseStringMin1,
        optField j "alert" parseAlertBody with
    | some i, some a => some ⟨i, a⟩
    | _, _ => none
  | _ => none

/-- `AlertsFeedSchema` (lines 184-188). -/
def parseAlertsFeed (j : Json) : Option (List AlertsFeedEntity) :=
  match j with
  | .obj _ => arrFieldD j "entity" parseAlertsEntity
  | _ => none

/-- `pickTranslatedText` (lines 190-198): the first translation whose `text`
is a string with non-blank content, untrimmed. -/
def pickTranslatedText (input : Option TranslatedText) : Option String :=
  match input with
  | none => none
  | some tt =>
    (tt.translation.find? fun t =>
        match t.text with
        | some s => decide (s.trim ≠ "")
        | none => false).bind
      fun t => t.text

/-- The per-entity mapping of `getVehiclePositions` (lines 264-280): entities
without a vehicle position are dropped (`null`), the rest are flattened into
`RenfeVehiclePositionDto`. -/
def entityToVehiclePosition (e : FeedEntity) :
    Option RenfeVehiclePositionDto :=
  match e.vehicle with
  | none => none
  | some veh =>
    match veh.position with
    | none => none
    | some pos =>
      some
        { id := (veh.vehicle.bind fun d => d.id).getD e.id
          label := (veh.vehicle.bind fun d => d.label)
          latitude := pos.latitude
          longitude := pos.longitude
          timestamp := veh.timestamp
          tripId := (veh.trip.bind fun t => t.tripId)
          routeId := (veh.trip.bind fun t => t.routeId)
          currentStatus := veh.currentStatus }

/-- `RenfeService.getVehiclePositions` (lines 251-281) from the fetched JSON
body onward: a failed `FeedSchema.safeParse` throws the validation error, a
successful one yields the mapped-and-filtered records. -/
def getVehiclePositions (j : Json) :
    Except String (List RenfeVehiclePositionDto) :=
  match parseFeed j with
  | none => .error "Invalid Renfe GTFS-RT JSON"
  | some entities => .ok (entities.filterMap entityToVehiclePosition)

/-- The per-entity mapping of `getAlerts` (lines 296-321): entities without an
alert body are dropped, the rest are flattened into `RenfeAlertDto`. -/
def alertsEntityToAlert (e : AlertsFeedEntity) : Option RenfeAlertDto :=
  match e.alert with
  | none => none
  | some al =>
    let firstPeriod := al.activePeriod.head?
    some
      { id := e.id
        cause := al.cause
        effect := al.effect
        header := pickTranslatedText al.headerText
        description := pickTranslatedText al.descriptionText
        url := pickTranslatedText al.url
        start := firstPeriod.bind fun p => p.start
        end_ := firstPeriod.bind fun p => p.end_
        informedEntities := al.informedEntity.map fun ie =>
          ⟨ie.agencyId, ie.routeId, ie.trip.bind fun t => t.tripId,
            ie.stopId⟩ }

/-- `RenfeService.getAlerts` (lines 283-322) from the fetched JSON body
onward. -/
def getAlerts (j : Json) : Except String (List RenfeAlertDto) :=
  match parseAlertsFeed j with
  | none => .error "Invalid Renfe GTFS-RT alerts JSON"
  | some entities => .ok (entities.filterMap alertsEntityToAlert)

/-! ## Spec-side definitions and concrete inputs used by the claims -/

/-- The claim's notion of "the top-level feed envelope itself is decodable",
following the spec's words: the body is a JSON object and its `entity` member,
when present, is an array (per-entity contents are a matter of per-entry shape
validation, not of the envelope). -/
def specEnvelopeDecodable (j : Json) : Bool :=
  match j with
  | .obj _ =>
    match j.getField "entity" with
    | none => true
    | some (.arr _) => true
    | some _ => false
  | _ => false

/-- The claim's match condition for correlation (spec wording): vehicle id `x`
belongs to the match set of alert `a` iff some vehicle with id `x` has a trip
id named in `a`'s informed entities or a route id named there. -/
def specMatchesAlert (vehicles : List RenfeVehiclePositionDto)
    (a : RenfeAlertDto) (x : String) : Prop :=
  (∃ v ∈ vehicles, v.id = x ∧
    ∃ t, v.tripId = some t ∧ ∃ ie ∈ a.informedEntities, ie.tripId = some t) ∨
  (∃ v ∈ vehicles, v.id = x ∧
    ∃ r, v.routeId = some r ∧ ∃ ie ∈ a.informedEntities, ie.routeId = some r)

/-- C1 counterexample feed: structurally a fine envelope (`entity` is an
array), but its single entity carries an out-of-range latitude, so the entity
fails shape validation. -/
def cexC1Feed : Json :=
  .obj [("entity", .arr [.obj [("id", .str "a"),
    ("vehicle", .obj [("position",
      .obj [("latitude", .num 91), ("longitude", .num 0)])])]])]

/-- A two-entity vehicle feed: one entity with a position, one without. -/
def demoC1Feed : Json :=
  .obj [("entity", .arr [
    .obj [("id", .str "a"),
      ("vehicle", .obj [("position",
        .obj [("latitude", .num 1), ("longitude", .num 2)])])],
    .obj [("id", .str "b")]])]

/-- An alerts feed with one entity carrying an alert body and one without. -/
def demoC1AlertsFeed : Json :=
  .obj [("entity", .arr [
    .obj [("id", .str "x"), ("alert", .obj [])],
    .obj [("id", .str "y")]])]

/-- C2 counterexample vehicle: its trip id is the empty string. -/
def cexC2Vehicle : RenfeVehiclePositionDto :=
  ⟨"V", none, 0, 0, none, some "", none, none⟩

/-- C2 counterexample alert: one informed entity naming the empty-string trip
id. -/
def cexC2Alert : RenfeAlertDto :=
  ⟨"A", none, none, none, none, none, none, none,
    [⟨none, none, some "", none⟩]⟩

/-- A concrete alert with no informed entities. -/
def demoAlertNoEntities : RenfeAlertDto :=
  ⟨"A0", none, none, none, none, none, some 1, some 2, []⟩

/-- Vehicle `V1` of the spec's concrete scenario (route `R1`, trip `TR1`). -/
def exVehicle1 : RenfeVehiclePositionDto :=
  ⟨"V1", none, 1, 2, none, some "TR1", some "R1", none⟩

/-- Vehicle `V2` of the spec's concrete scenario (route `R2`, no trip). -/
def exVehicle2 : RenfeVehiclePositionDto :=
  ⟨"V2", none, 3, 4, none, none, some "R2", none⟩

/-- Alert `A1` of the spec's concrete scenario (informs `R1`, start 100, no
end). -/
def exAlert1 : RenfeAlertDto :=
  ⟨"A1", none, none, none, none, none, some 100, none,
    [⟨none, some "R1", none, none⟩]⟩

/-- C5 counterexample vehicle: on route `R1` with timestamp `0` (which JS
truthiness treats as absent). -/
def cexC5Vehicle : RenfeVehiclePositionDto :=
  ⟨"V1", none, 1, 2, some 0, none, some "R1", none⟩

/-- C5 counterexample vehicle: its route id is the empty string (JS-falsy, so
it is never indexed and its route gets no summary row). -/
def cexC5VehicleEmptyRoute : RenfeVehiclePositionDto :=
  ⟨"V2", none, 1, 2, some 5, none, some "", none⟩

/-- A small insights value used to exercise the history store. -/
def demoInsights : RenfeInsightsDto :=
  getInsights [exVehicle1, exVehicle2] [exAlert1] 500

/-- A stored blob used to populate demo history states. -/
def demoStored (ts : Int) (id : String) : StoredSnapshot :=
  { id := some id
    timestamp := ts
    totals := demoInsights.totals
    alertsByEffect := []
    alertsByCause := []
    vehiclesByStatus := []
    vehicles := some []
    alerts := some [] }

/-- An index entry for `demoStored`. -/
def demoEntry (ts : Int) (id : String) : HistoryIndexEntry :=
  { id := some id
    timestamp := ts
    filename := "snapshot-" ++ id ++ ".json"
    vehicleCount := some 0
    alertCount := some 0 }

/-- The retention scenario of the spec: entries captured 40 days, 20 days and
1 day before `now = 86400 * 100`. -/
def demoRetentionState : HistoryState :=
  { files :=
      [("snapshot-old.json", demoStored (86400 * 60) "old"),
       ("snapshot-mid.json", demoStored (86400 * 80) "mid"),
       ("snapshot-new.json", demoStored (86400 * 99) "new")]
    indexFile := some ⟨[demoEntry (86400 * 60) "old",
      demoEntry (86400 * 80) "mid", demoEntry (86400 * 99) "new"]⟩ }

/-- A snapshot record holding one alert, for exercising the controller
response. -/
def demoSnapshotWith (a : ReducedAlert) : HistorySnapshot :=
  { id := "s"
    timestamp := 0
    totals := demoInsights.totals
    alertsByEffect := []
    alertsByCause := []
    vehiclesByStatus := []
    vehicles := []
    alerts := [a] }

/-! ## Lemmas about the JS collection primitives -/

theorem mem_setAdd {s : List String} {y x : String} :
    x ∈ setAdd s y ↔ x ∈ s ∨ x = y := by
  by_cases h : y ∈ s
  · simp only [setAdd, if_pos h]
    constructor
    · exact Or.inl
    · rintro (hx | rfl)
      · exact hx
      · exact h
  · simp [setAdd, if_neg h]

theorem nodup_setAdd {s : List String} {y : String} (h : s.Nodup) :
    (setAdd s y).Nodup := by
  by_cases hy : y ∈ s
  · simpa [setAdd, hy] using h
  · simp only [setAdd, if_neg hy]
    simp [List.nodup_append, h, hy]

theorem mem_foldl_setAdd (l : List String) (s : List String) (x : String) :
    x ∈ l.foldl setAdd s ↔ x ∈ s ∨ x ∈ l := by
  induction l generalizing s with
  | nil => simp
  | cons a t ih =>
    simp only [List.foldl_cons, ih, mem_setAdd, List.mem_cons]
    tauto

theorem nodup_foldl_setAdd (l : List String) {s : List String}
    (h : s.Nodup) : (l.foldl setAdd s).Nodup := by
  induction l generalizing s with
  | nil => exact h
  | cons a t ih => exact ih (nodup_setAdd h)

theorem mapGetD_mapSet {β : Type} (m : List (String × β)) (k : String) (v : β)
    (k' : String) (d : β) :
    mapGetD (mapSet m k v) k' d = if k' = k then v else mapGetD m k' d := by
  induction m with
  | nil =>
    simp only [mapSet, mapGetD]
    by_cases h : k = k'
    · subst h; simp
    · rw [if_neg h, if_neg fun hh => h hh.symm]
  | cons p rest ih =>
    obtain ⟨a, b⟩ := p
    by_cases hak : a = k
    · subst hak
      by_cases h : a = k'
      · subst h
        simp [mapSet, mapGetD]
      · have h2 : k' ≠ a := fun hh => h hh.symm
        simp only [mapSet, if_pos rfl, mapGetD, if_neg h, if_neg h2]
    · simp only [mapSet, if_neg hak, mapGetD, ih]
      by_cases h : a = k'
      · subst h
        simp [hak]
      · simp only [if_neg h]

theorem map_fst_mapSet {β : Type} (m : List (String × β)) (k : String)
    (v : β) :
    (mapSet m k v).map Prod.fst =
      if k ∈ m.map Prod.fst then m.map Prod.fst
      else m.map Prod.fst ++ [k] := by
  induction m with
  | nil => simp [mapSet]
  | cons p rest ih =>
    obtain ⟨a, b⟩ := p
    by_cases hak : a = k
    · subst hak
      simp [mapSet]
    · simp only [mapSet, if_neg hak, List.map_cons, ih, List.mem_cons]
      by_cases h : k ∈ rest.map Prod.fst
      · rw [if_pos h, if_pos (Or.inr h)]
      · rw [if_neg h, if_neg ?_, List.cons_append]
        rintro (h' | h')
        · exact hak h'.symm
        · exact h h'

theorem mapGetD_eq_of_mem {β : Type} {m : List (String × β)} {k : String}
    {c : β} (d : β) (hnd : (m.map Prod.fst).Nodup) (h : (k, c) ∈ m) :
    mapGetD m k d = c := by
  induction m with
  | nil => cases h
  | cons p rest ih =>
    obtain ⟨a, b⟩ := p
    simp only [List.map_cons, List.nodup_cons] at hnd
    rcases List.mem_cons.mp h with h' | h'
    · have h1 : k = a := congrArg Prod.fst h'
      have h2 : c = b := congrArg Prod.snd h'
      subst h1
      subst h2
      simp [mapGetD]
    · have hak : a ≠ k := by
        rintro rfl
        exact hnd.1 (List.mem_map.mpr ⟨(a, c), h', rfl⟩)
      simp only [mapGetD, if_neg hak]
      exact ih hnd.2 h'

theorem getD_mem_of_key_mem {β : Type} {m : List (String × β)} {k : String}
    (d : β) (h : k ∈ m.map Prod.fst) : (k, mapGetD m k d) ∈ m := by
  induction m with
  | nil => cases h
  | cons p rest ih =>
    obtain ⟨a, b⟩ := p
    rcases List.mem_cons.mp h with h' | h'
    · subst h'
      simp [mapGetD]
    · by_cases hak : a = k
      · subst hak
        simp [mapGetD]
      · simp only [mapGetD, if_neg hak]
        exact List.mem_cons_of_mem _ (ih h')

/-! ## Claim C3: the active-at-instant predicate -/

/-- C3: for every `start`, `end` (unix seconds or null) and instant `T`,
`isActiveAt start end T` is true iff (start is null or start ≤ T) and (end is
null or end ≥ T); an alert with no start and no end is active at every `T`;
with start = 100 and end = 200 it is active at 150 and inactive at 250. -/
theorem renfe_C3_isActiveAt :
    (∀ (start end_ : Option Int) (t : Int),
      isActiveAt start end_ t = true ↔
        ((start = none ∨ ∃ s, start = some s ∧ s ≤ t) ∧
         (end_ = none ∨ ∃ e, end_ = some e ∧ t ≤ e))) ∧
    (∀ t : Int, isActiveAt none none t = true) ∧
    isActiveAt (some 100) (some 200) 150 = true ∧
    isActiveAt (some 100) (some 200) 250 = false := by
  refine ⟨?_, fun t => rfl, by decide, by decide⟩
  intro s e t
  cases s <;> cases e <;> simp [isActiveAt]

/-! ## Claim C4: duration minutes and duration buckets -/

/-- C4: `durationMinutes` is `round((effectiveEnd − start) / 60)` with
`effectiveEnd = end ?? referenceInstant`, null when start is null or the
elapsed time is non-positive; the buckets are `< 30` → "< 30min", `< 60` →
"30-60min", `< 120` → "1-2h", `< 240` → "2-4h", `< 480` → "4-8h", else
"> 8h", with null → "Unknown"; a duration of exactly 30 minutes buckets to
"30-60min". -/
theorem renfe_C4_duration :
    (∀ (e : Option Int) (now : Int),
      computeDurationMinutes none e now = none) ∧
    (∀ (s : Int) (e : Option Int) (now : Int),
      computeDurationMinutes (some s) e now =
        if e.getD now - s ≤ 0 then none
        else some (round (((e.getD now - s : Int) : ℚ) / 60))) ∧
    getDurationBucket none = "Unknown" ∧
    (∀ m : Int, getDurationBucket (some m) =
      if m < 30 then "< 30min"
      else if m < 60 then "30-60min"
      else if m < 120 then "1-2h"
      else if m < 240 then "2-4h"
      else if m < 480 then "4-8h"
      else "> 8h") ∧
    computeDurationMinutes (some 1000) (some 2800) 0 = some 30 ∧
    getDurationBucket (computeDurationMinutes (some 1000) (some 2800) 0) =
      "30-60min" := by
  refine ⟨fun e now => rfl, ?_, rfl, fun m => rfl, ?_, ?_⟩
  · intro s e now
    simp only [computeDurationMinutes]
    rcases lt_or_le 0 (e.getD now - s) with h | h
    · rw [if_pos h, if_neg (not_le.mpr h)]
    · rw [if_neg (not_lt.mpr h), if_pos h]
  · have h : round ((1800 : ℚ) / 60) = 30 := by norm_num [round_eq]
    simp [computeDurationMinutes, h]
  · have h : round ((1800 : ℚ) / 60) = 30 := by norm_num [round_eq]
    simp [computeDurationMinutes, getDurationBucket, h]

/-! ## Lemmas about `countByKey` -/

theorem countByKey_fold_inv :
    ∀ (values : List (Option String)) (ks : List String)
      (m : List (String × Nat)),
    (m.map Prod.fst).Nodup →
    (∀ k, mapGetD m k 0 = ks.count k) →
    (∀ k, k ∈ m.map Prod.fst ↔ k ∈ ks) →
    ((values.foldl countByKeyStep m).map Prod.fst).Nodup ∧
    (∀ k, mapGetD (values.foldl countByKeyStep m) k 0 =
      (ks ++ values.map fun v => v.getD "UNKNOWN").count k) ∧
    (∀ k, k ∈ (values.foldl countByKeyStep m).map Prod.fst ↔
      k ∈ ks ++ values.map fun v => v.getD "UNKNOWN") := by
  intro values
  induction values with
  | nil =>
    intro ks m hnd hcount hmem
    exact ⟨hnd, fun k => by simpa using hcount k,
      fun k => by simpa using hmem k⟩
  | cons v t ih =>
    intro ks m hnd hcount hmem
    simp only [List.foldl_cons]
    have h1 : ((countByKeyStep m v).map Prod.fst).Nodup := by
      simp only [countByKeyStep, map_fst_mapSet]
      by_cases h : v.getD "UNKNOWN" ∈ m.map Prod.fst
      · rw [if_pos h]; exact hnd
      · rw [if_neg h]
        simp [List.nodup_append, hnd, h]
    have h2 : ∀ k, mapGetD (countByKeyStep m v) k 0 =
        (ks ++ [v.getD "UNKNOWN"]).count k := by
      intro k
      simp only [countByKeyStep, mapGetD_mapSet]
      by_cases h : k = v.getD "UNKNOWN"
      · subst h
        rw [if_pos rfl, hcount]
        simp [List.count_append]
      · have hz : List.count k [v.getD "UNKNOWN"] = 0 :=
          List.count_eq_zero.mpr (by simp [h])
        rw [if_neg h, hcount, List.count_append, hz]
        omega
    have h3 : ∀ k, k ∈ (countByKeyStep m v).map Prod.fst ↔
        k ∈ ks ++ [v.getD "UNKNOWN"] := by
      intro k
      simp only [countByKeyStep, map_fst_mapSet]
      by_cases h : v.getD "UNKNOWN" ∈ m.map Prod.fst
      · rw [if_pos h]
        simp only [List.mem_append, List.mem_singleton, hmem]
        constructor
        · exact Or.inl
        · rintro (hk | rfl)
          · exact hk
          · exact (hmem _).mp h
      · rw [if_neg h]
        simp [hmem]
    have hres := ih (ks ++ [v.getD "UNKNOWN"]) (countByKeyStep m v) h1 h2 h3
    simpa [List.append_assoc] using hres

theorem countByKey_props (values : List (Option String)) :
    ((countByKey values).map fun p => p.key).Nodup ∧
    (∀ k c, RenfeCountByKeyDto.mk k c ∈ countByKey values ↔
      0 < c ∧ c = (values.map fun v => v.getD "UNKNOWN").count k) ∧
    (countByKey values).Pairwise fun a b => b.count ≤ a.count := by
  obtain ⟨hnd, hcount0, hmem0⟩ :=
    countByKey_fold_inv values [] [] (by simp) (by simp [mapGetD]) (by simp)
  have hcount : ∀ k, mapGetD (values.foldl countByKeyStep []) k 0 =
      (values.map fun v => v.getD "UNKNOWN").count k :=
    fun k => by simpa using hcount0 k
  have hmem : ∀ k, k ∈ (values.foldl countByKeyStep []).map Prod.fst ↔
      k ∈ values.map fun v => v.getD "UNKNOWN" :=
    fun k => by simpa using hmem0 k
  have hperm : (countByKey values).Perm
      ((values.foldl countByKeyStep []).map fun p =>
        RenfeCountByKeyDto.mk p.1 p.2) := by
    simp only [countByKey]
    exact List.mergeSort_perm _ _
  have hkeys : ((countByKey values).map fun p => p.key).Perm
      ((values.foldl countByKeyStep []).map Prod.fst) := by
    have h := hperm.map fun p => p.key
    simpa [List.map_map, Function.comp] using h
  have hmemiff : ∀ k c, RenfeCountByKeyDto.mk k c ∈ countByKey values ↔
      (k, c) ∈ values.foldl countByKeyStep [] := by
    intro k c
    simp only [countByKey, List.mem_mergeSort, List.mem_map]
    constructor
    · rintro ⟨⟨a, b⟩, hab, heq⟩
      rw [RenfeCountByKeyDto.mk.injEq] at heq
      obtain ⟨rfl, rfl⟩ := heq
      exact hab
    · intro h
      exact ⟨(k, c), h, rfl⟩
  refine ⟨hkeys.nodup_iff.mpr hnd, ?_, ?_⟩
  · intro k c
    rw [hmemiff]
    constructor
    · intro h
      have hc : c = mapGetD (values.foldl countByKeyStep []) k 0 :=
        (mapGetD_eq_of_mem 0 hnd h).symm
      have hk : k ∈ (values.foldl countByKeyStep []).map Prod.fst :=
        List.mem_map.mpr ⟨(k, c), h, rfl⟩
      have hkv : k ∈ values.map fun v => v.getD "UNKNOWN" := (hmem k).mp hk
      refine ⟨?_, by rw [hc, hcount]⟩
      rw [hc, hcount]
      exact List.count_pos_iff.mpr hkv
    · rintro ⟨hpos, rfl⟩
      have hkv : k ∈ values.map fun v => v.getD "UNKNOWN" :=
        List.count_pos_iff.mp hpos
      have hk : k ∈ (values.foldl countByKeyStep []).map Prod.fst :=
        (hmem k).mpr hkv
      have h := getD_mem_of_key_mem 0 hk
      rwa [hcount] at h
  · simp only [countByKey]
    have htrans : ∀ a b c : RenfeCountByKeyDto,
        decide (b.count ≤ a.count) = true →
        decide (c.count ≤ b.count) = true →
        decide (c.count ≤ a.count) = true := by
      intro a b c hab hbc
      simp only [decide_eq_true_eq] at *
      exact le_trans hbc hab
    have htotal : ∀ a b : RenfeCountByKeyDto,
        (decide (b.count ≤ a.count) || decide (a.count ≤ b.count)) = true := by
      intro a b
      simp only [Bool.or_eq_true, decide_eq_true_eq]
      exact le_total b.count a.count
    have hs := @List.sorted_mergeSort RenfeCountByKeyDto
      (fun a b => decide (b.count ≤ a.count)) htrans htotal
      ((values.foldl countByKeyStep []).map fun p =>
        RenfeCountByKeyDto.mk p.1 p.2)
    exact hs.imp fun h => of_decide_eq_true h

/-! ## Claim C7: `countByKey` -/

/-- C7: `countByKey` substitutes "UNKNOWN" for null, produces one entry per
distinct key with count ≥ 1 (an entry `⟨k, c⟩` appears iff `c` is the positive
number of occurrences of `k`), returns entries sorted descending by count, and
is invariant under permutation of the input (same key set with the same
counts). -/
theorem renfe_C7_countByKey :
    (∀ values : List (Option String),
      ((countByKey values).map fun p => p.key).Nodup ∧
      (∀ k c, RenfeCountByKeyDto.mk k c ∈ countByKey values ↔
        0 < c ∧ c = (values.map fun v => v.getD "UNKNOWN").count k) ∧
      (countByKey values).Pairwise fun a b => b.count ≤ a.count) ∧
    (∀ values values' : List (Option String), values.Perm values' →
      ∀ k c, (RenfeCountByKeyDto.mk k c ∈ countByKey values ↔
        RenfeCountByKeyDto.mk k c ∈ countByKey values')) := by
  refine ⟨countByKey_props, ?_⟩
  intro values values' hperm k c
  rw [(countByKey_props values).2.1, (countByKey_props values').2.1]
  have hc : (values.map fun v => v.getD "UNKNOWN").count k =
      (values'.map fun v => v.getD "UNKNOWN").count k :=
    (hperm.map fun v => v.getD "UNKNOWN").count_eq k
  rw [hc]

/-- Witness for `renfe_C7_countByKey`: a concrete permuted input pair. -/
theorem renfe_C7_countByKey_witness :
    [some "a", none, some "a"].Perm [none, some "a", some "a"] ∧
    (RenfeCountByKeyDto.mk "a" 2 ∈ countByKey [some "a", none, some "a"] ↔
      RenfeCountByKeyDto.mk "a" 2 ∈ countByKey [none, some "a", some "a"]) := by
  have hp : [some "a", none, some "a"].Perm [none, some "a", some "a"] := by
    decide
  exact ⟨hp, renfe_C7_countByKey.2 _ _ hp "a" 2⟩

/-! ## Lemmas about the vehicle indices -/

theorem indexStep_trip (acc : VehicleIndices) (v : RenfeVehiclePositionDto) :
    (indexStep acc v).vehiclesByTripId =
      (match v.tripId with
      | some t =>
        if t = "" then acc.vehiclesByTripId
        else mapSet acc.vehiclesByTripId t
          (setAdd (mapGetD acc.vehiclesByTripId t []) v.id)
      | none => acc.vehiclesByTripId) := by
  rcases hv : v.tripId with _ | t <;>
    rcases hr : v.routeId with _ | r <;>
    rcases hts : v.timestamp with _ | u <;>
    simp only [indexStep, hv, hr, hts] <;>
    split_ifs <;> rfl

theorem indexStep_route (acc : VehicleIndices) (v : RenfeVehiclePositionDto) :
    (indexStep acc v).vehiclesByRouteId =
      (match v.routeId with
      | some r =>
        if r = "" then acc.vehiclesByRouteId
        else mapSet acc.vehiclesByRouteId r
          (setAdd (mapGetD acc.vehiclesByRouteId r []) v.id)
      | none => acc.vehiclesByRouteId) := by
  rcases hv : v.tripId with _ | t <;>
    rcases hr : v.routeId with _ | r <;>
    rcases hts : v.timestamp with _ | u <;>
    simp only [indexStep, hv, hr, hts] <;>
    split_ifs <;> rfl

theorem indexStep_ts (acc : VehicleIndices) (v : RenfeVehiclePositionDto) :
    (indexStep acc v).vehicleTimestampsByRoute =
      (match v.routeId with
      | some r =>
        if r = "" then acc.vehicleTimestampsByRoute
        else
          match v.timestamp with
          | some u =>
            if u = 0 then acc.vehicleTimestampsByRoute
            else mapSet acc.vehicleTimestampsByRoute r
              (mapGetD acc.vehicleTimestampsByRoute r [] ++ [u])
          | none => acc.vehicleTimestampsByRoute
      | none => acc.vehicleTimestampsByRoute) := by
  rcases hv : v.tripId with _ | t <;>
    rcases hr : v.routeId with _ | r <;>
    rcases hts : v.timestamp with _ | u <;>
    simp only [indexStep, hv, hr, hts] <;>
    split_ifs <;> rfl

theorem mem_trip_index (vehicles : List RenfeVehiclePositionDto)
    (acc : VehicleIndices) (t x : String) (ht : t ≠ "") :
    (x ∈ mapGetD (vehicles.foldl indexStep acc).vehiclesByTripId t [] ↔
      x ∈ mapGetD acc.vehiclesByTripId t [] ∨
        ∃ v ∈ vehicles, v.tripId = some t ∧ v.id = x) := by
  induction vehicles generalizing acc with
  | nil => simp
  | cons v rest ih =>
    simp only [List.foldl_cons]
    rw [ih]
    have hstep : x ∈ mapGetD (indexStep acc v).vehiclesByTripId t [] ↔
        x ∈ mapGetD acc.vehiclesByTripId t [] ∨
          (v.tripId = some t ∧ v.id = x) := by
      rcases hv : v.tripId with _ | t'
      · simp [indexStep_trip, hv]
      · by_cases h : t' = ""
        · subst h
          simp [indexStep_trip, hv, Ne.symm ht]
        · simp only [indexStep_trip, hv]
          rw [if_neg h, mapGetD_mapSet]
          by_cases htt : t = t'
          · subst htt
            rw [if_pos rfl, mem_setAdd]
            simp [eq_comm]
          · rw [if_neg htt]
            simp only [Option.some.injEq]
            constructor
            · exact Or.inl
            · rintro (hx | ⟨rfl, -⟩)
              · exact hx
              · exact absurd rfl htt
    rw [hstep]
    constructor
    · rintro ((hx | hp) | ⟨w, hw, hp⟩)
      · exact Or.inl hx
      · exact Or.inr ⟨v, List.mem_cons_self .., hp⟩
      · exact Or.inr ⟨w, List.mem_cons_of_mem _ hw, hp⟩
    · rintro (hx | ⟨w, hw, hp⟩)
      · exact Or.inl (Or.inl hx)
      · rcases List.mem_cons.mp hw with rfl | hw'
        · exact Or.inl (Or.inr hp)
        · exact Or.inr ⟨w, hw', hp⟩

theorem mem_route_index (vehicles : List RenfeVehiclePositionDto)
    (acc : VehicleIndices) (r x : String) (hr : r ≠ "") :
    (x ∈ mapGetD (vehicles.foldl indexStep acc).vehiclesByRouteId r [] ↔
      x ∈ mapGetD acc.vehiclesByRouteId r [] ∨
        ∃ v ∈ vehicles, v.routeId = some r ∧ v.id = x) := by
  induction vehicles generalizing acc with
  | nil => simp
  | cons v rest ih =>
    simp only [List.foldl_cons]
    rw [ih]
    have hstep : x ∈ mapGetD (indexStep acc v).vehiclesByRouteId r [] ↔
        x ∈ mapGetD acc.vehiclesByRouteId r [] ∨
          (v.routeId = some r ∧ v.id = x) := by
      rcases hv : v.routeId with _ | r'
      · simp [indexStep_route, hv]
      · by_cases h : r' = ""
        · subst h
          simp [indexStep_route, hv, Ne.symm hr]
        · simp only [indexStep_route, hv]
          rw [if_neg h, mapGetD_mapSet]
          by_cases hrr : r = r'
          · subst hrr
            rw [if_pos rfl, mem_setAdd]
            simp [eq_comm]
          · rw [if_neg hrr]
            simp only [Option.some.injEq]
            constructor
            · exact Or.inl
            · rintro (hx | ⟨rfl, -⟩)
              · exact hx
              · exact absurd rfl hrr
    rw [hstep]
    constructor
    · rintro ((hx | hp) | ⟨w, hw, hp⟩)
      · exact Or.inl hx
      · exact Or.inr ⟨v, List.mem_cons_self .., hp⟩
      · exact Or.inr ⟨w, List.mem_cons_of_mem _ hw, hp⟩
    · rintro (hx | ⟨w, hw, hp⟩)
      · exact Or.inl (Or.inl hx)
      · rcases List.mem_cons.mp hw with rfl | hw'
        · exact Or.inl (Or.inr hp)
        · exact Or.inr ⟨w, hw', hp⟩

theorem nodup_route_index (vehicles : List RenfeVehiclePositionDto)
    (acc : VehicleIndices)
    (hacc : ∀ r', (mapGetD acc.vehiclesByRouteId r' []).Nodup) (r : String) :
    (mapGetD (vehicles.foldl indexStep acc).vehiclesByRouteId r []).Nodup := by
  induction vehicles generalizing acc with
  | nil => exact hacc r
  | cons v rest ih =>
    simp only [List.foldl_cons]
    refine ih _ ?_
    intro r'
    rcases hv : v.routeId with _ | r''
    · simp only [indexStep_route, hv]
      exact hacc r'
    · by_cases h : r'' = ""
      · subst h
        simp only [indexStep_route, hv, if_pos rfl]
        exact hacc r'
      · simp only [indexStep_route, hv]
        rw [if_neg h, mapGetD_mapSet]
        by_cases hrr : r' = r''
        · rw [if_pos hrr]
          exact nodup_setAdd (hacc r'')
        · rw [if_neg hrr]
          exact hacc r'

theorem ts_index_eq (vehicles : List RenfeVehiclePositionDto)
    (acc : VehicleIndices) (r : String) :
    mapGetD (vehicles.foldl indexStep acc).vehicleTimestampsByRoute r [] =
      mapGetD acc.vehicleTimestampsByRoute r [] ++
        vehicles.filterMap (fun v =>
          match v.routeId, v.timestamp with
          | some r', some u =>
            if r' = r ∧ r' ≠ "" ∧ u ≠ 0 then some u else none
          | _, _ => none) := by
  induction vehicles generalizing acc with
  | nil => simp
  | cons v rest ih =>
    simp only [List.foldl_cons, List.filterMap_cons]
    rw [ih]
    rcases hv : v.routeId with _ | r'
    · simp only [indexStep_ts, hv]
    · rcases hts : v.timestamp with _ | u
      · have heq : (indexStep acc v).vehicleTimestampsByRoute =
            acc.vehicleTimestampsByRoute := by
          simp only [indexStep_ts, hv, hts]
          split_ifs <;> rfl
        rw [heq]
      · by_cases h : r' = ""
        · subst h
          have heq : (indexStep acc v).vehicleTimestampsByRoute =
              acc.vehicleTimestampsByRoute := by
            simp [indexStep_ts, hv, hts]
          rw [heq]
          simp
        · by_cases hu : u = 0
          · subst hu
            have heq : (indexStep acc v).vehicleTimestampsByRoute =
                acc.vehicleTimestampsByRoute := by
              simp [indexStep_ts, hv, hts, h]
            rw [heq]
            simp [h]
          · have heq : (indexStep acc v).vehicleTimestampsByRoute =
                mapSet acc.vehicleTimestampsByRoute r'
                  (mapGetD acc.vehicleTimestampsByRoute r' [] ++ [u]) := by
              simp only [indexStep_ts, hv, hts, if_neg h, if_neg hu]
            rw [heq, mapGetD_mapSet]
            by_cases hrr : r = r'
            · subst hrr
              simp [h, hu, List.append_assoc]
            · rw [if_neg hrr]
              have : ¬(r' = r ∧ r' ≠ "" ∧ u ≠ 0) := by
                rintro ⟨rfl, -, -⟩
                exact hrr rfl
              simp [this]

/-! ## Lemmas about `sortStrings` and the id-set folds -/

theorem mem_sortStrings {l : List String} {x : String} :
    x ∈ sortStrings l ↔ x ∈ l := by
  simp [sortStrings, List.mem_mergeSort]

theorem sortStrings_perm (l : List String) : (sortStrings l).Perm l :=
  List.mergeSort_perm l _

theorem sortStrings_nodup {l : List String} (h : l.Nodup) :
    (sortStrings l).Nodup :=
  (sortStrings_perm l).nodup_iff.mpr h

theorem sortStrings_sorted (l : List String) :
    (sortStrings l).Pairwise (· ≤ ·) := by
  have hs := @List.sorted_mergeSort String (fun a b => decide (a ≤ b))
    (fun a b c hab hbc => by
      simp only [decide_eq_true_eq] at *
      exact le_trans hab hbc)
    (fun a b => by
      simp only [Bool.or_eq_true, decide_eq_true_eq]
      exact le_total a b) l
  exact hs.imp fun h => of_decide_eq_true h

theorem sortStrings_strict {l : List String} (h : l.Nodup) :
    (sortStrings l).Pairwise (· < ·) := by
  have h1 := sortStrings_sorted l
  have h2 : (sortStrings l).Pairwise (· ≠ ·) := sortStrings_nodup h
  exact (h1.and h2).imp fun hab => lt_of_le_of_ne hab.1 hab.2

theorem mem_unionIndexed (m : List (String × List String))
    (keys init : List String) (x : String) :
    x ∈ unionIndexed m keys init ↔
      x ∈ init ∨ ∃ k ∈ keys, x ∈ mapGetD m k [] := by
  induction keys generalizing init with
  | nil => simp [unionIndexed]
  | cons k rest ih =>
    simp only [unionIndexed, List.foldl_cons] at *
    rw [ih, mem_foldl_setAdd]
    constructor
    · rintro ((hx | hk) | ⟨k', hk', hx⟩)
      · exact Or.inl hx
      · exact Or.inr ⟨k, List.mem_cons_self .., hk⟩
      · exact Or.inr ⟨k', List.mem_cons_of_mem _ hk', hx⟩
    · rintro (hx | ⟨k', hk', hx⟩)
      · exact Or.inl (Or.inl hx)
      · rcases List.mem_cons.mp hk' with rfl | hk''
        · exact Or.inl (Or.inr hx)
        · exact Or.inr ⟨k', hk'', hx⟩

theorem nodup_unionIndexed (m : List (String × List String))
    (keys : List String) {init : List String} (h : init.Nodup) :
    (unionIndexed m keys init).Nodup := by
  induction keys generalizing init with
  | nil => exact h
  | cons k rest ih =>
    simp only [unionIndexed, List.foldl_cons] at *
    exact ih (nodup_foldl_setAdd _ h)

theorem mem_alertTripIds (a : RenfeAlertDto) (t : String) :
    t ∈ alertTripIds a ↔
      t ≠ "" ∧ ∃ ie ∈ a.informedEntities, ie.tripId = some t := by
  have gen : ∀ (ents : List RenfeAlertInformedEntityDto) (init : List String),
      (t ∈ ents.foldl
        (fun s ie => match ie.tripId with
          | some t => if t = "" then s else setAdd s t
          | none => s) init ↔
        t ∈ init ∨ (t ≠ "" ∧ ∃ ie ∈ ents, ie.tripId = some t)) := by
    intro ents
    induction ents with
    | nil => simp
    | cons ie rest ih =>
      intro init
      simp only [List.foldl_cons]
      rw [ih]
      have hstep : (t ∈ (match ie.tripId with
          | some t => if t = "" then init else setAdd init t
          | none => init) ↔
          t ∈ init ∨ (t ≠ "" ∧ ie.tripId = some t)) := by
        rcases hie : ie.tripId with _ | t'
        · simp
        · by_cases h : t' = ""
          · subst h
            simp only [if_pos rfl]
            constructor
            · exact Or.inl
            · rintro (hx | ⟨hne, heq⟩)
              · exact hx
              · exact absurd (Option.some.injEq .. ▸ heq).symm hne
          · simp only [if_neg h, mem_setAdd]
            constructor
            · rintro (hx | rfl)
              · exact Or.inl hx
              · exact Or.inr ⟨h, rfl⟩
            · rintro (hx | ⟨hne, heq⟩)
              · exact Or.inl hx
              · exact Or.inr (Option.some.injEq .. ▸ heq).symm
      rw [hstep]
      constructor
      · rintro ((hx | hp) | ⟨hne, ie', hie', hp⟩)
        · exact Or.inl hx
        · exact Or.inr ⟨hp.1, ie, List.mem_cons_self .., hp.2⟩
        · exact Or.inr ⟨hne, ie', List.mem_cons_of_mem _ hie', hp⟩
      · rintro (hx | ⟨hne, ie', hie', hp⟩)
        · exact Or.inl (Or.inl hx)
        · rcases List.mem_cons.mp hie' with rfl | hw
          · exact Or.inl (Or.inr ⟨hne, hp⟩)
          · exact Or.inr ⟨hne, ie', hw, hp⟩
  simpa [alertTripIds] using gen a.informedEntities []

theorem mem_alertRouteIds (a : RenfeAlertDto) (r : String) :
    r ∈ alertRouteIds a ↔
      r ≠ "" ∧ ∃ ie ∈ a.informedEntities, ie.routeId = some r := by
  have gen : ∀ (ents : List RenfeAlertInformedEntityDto) (init : List String),
      (r ∈ ents.foldl
        (fun s ie => match ie.routeId with
          | some r => if r = "" then s else setAdd s r
          | none => s) init ↔
        r ∈ init ∨ (r ≠ "" ∧ ∃ ie ∈ ents, ie.routeId = some r)) := by
    intro ents
    induction ents with
    | nil => simp
    | cons ie rest ih =>
      intro init
      simp only [List.foldl_cons]
      rw [ih]
      have hstep : (r ∈ (match ie.routeId with
          | some r => if r = "" then init else setAdd init r
          | none => init) ↔
          r ∈ init ∨ (r ≠ "" ∧ ie.routeId = some r)) := by
        rcases hie : ie.routeId with _ | r'
        · simp
        · by_cases h : r' = ""
          · subst h
            simp only [if_pos rfl]
            constructor
            · exact Or.inl
            · rintro (hx | ⟨hne, heq⟩)
              · exact hx
              · exact absurd (Option.some.injEq .. ▸ heq).symm hne
          · simp only [if_neg h, mem_setAdd]
            constructor
            · rintro (hx | rfl)
              · exact Or.inl hx
              · exact Or.inr ⟨h, rfl⟩
            · rintro (hx | ⟨hne, heq⟩)
              · exact Or.inl hx
              · exact Or.inr (Option.some.injEq .. ▸ heq).symm
      rw [hstep]
      constructor
      · rintro ((hx | hp) | ⟨hne, ie', hie', hp⟩)
        · exact Or.inl hx
        · exact Or.inr ⟨hp.1, ie, List.mem_cons_self .., hp.2⟩
        · exact Or.inr ⟨hne, ie', List.mem_cons_of_mem _ hie', hp⟩
      · rintro (hx | ⟨hne, ie', hie', hp⟩)
        · exact Or.inl (Or.inl hx)
        · rcases List.mem_cons.mp hie' with rfl | hw
          · exact Or.inl (Or.inr ⟨hne, hp⟩)
          · exact Or.inr ⟨hne, ie', hw, hp⟩
  simpa [alertRouteIds] using gen a.informedEntities []

/-! ## Claim C2: alert-vehicle correlation -/

theorem mem_matchedVehicleIds (vehicles : List RenfeVehiclePositionDto)
    (generatedAt : Int) (a : RenfeAlertDto) (x : String) :
    (x ∈ (mkCorrelation (buildIndices vehicles) generatedAt
        a).matchedVehicleIds ↔
      ((∃ v ∈ vehicles, v.id = x ∧ ∃ t, v.tripId = some t ∧ t ≠ "" ∧
          ∃ ie ∈ a.informedEntities, ie.tripId = some t) ∨
       (∃ v ∈ vehicles, v.id = x ∧ ∃ r, v.routeId = some r ∧ r ≠ "" ∧
          ∃ ie ∈ a.informedEntities, ie.routeId = some r))) := by
  simp only [mkCorrelation, buildIndices]
  rw [mem_sortStrings, mem_unionIndexed, mem_unionIndexed]
  constructor
  · rintro ((hfalse | ⟨t, ht, hx⟩) | ⟨r, hr, hx⟩)
    · simp at hfalse
    · obtain ⟨hne, ie, hie, hp⟩ := (mem_alertTripIds a t).mp ht
      obtain h0 | ⟨v, hv, hvp, hvid⟩ :=
        (mem_trip_index vehicles _ t x hne).mp hx
      · simp [mapGetD] at h0
      · exact Or.inl ⟨v, hv, hvid, t, hvp, hne, ie, hie, hp⟩
    · obtain ⟨hne, ie, hie, hp⟩ := (mem_alertRouteIds a r).mp hr
      obtain h0 | ⟨v, hv, hvp, hvid⟩ :=
        (mem_route_index vehicles _ r x hne).mp hx
      · simp [mapGetD] at h0
      · exact Or.inr ⟨v, hv, hvid, r, hvp, hne, ie, hie, hp⟩
  · rintro (⟨v, hv, hvid, t, hvp, hne, ie, hie, hp⟩ |
      ⟨v, hv, hvid, r, hvp, hne, ie, hie, hp⟩)
    · refine Or.inl (Or.inr ⟨t, (mem_alertTripIds a t).mpr ⟨hne, ie, hie, hp⟩,
        ?_⟩)
      exact (mem_trip_index vehicles _ t x hne).mpr (Or.inr ⟨v, hv, hvp, hvid⟩)
    · refine Or.inr ⟨r, (mem_alertRouteIds a r).mpr ⟨hne, ie, hie, hp⟩, ?_⟩
      exact (mem_route_index vehicles _ r x hne).mpr
        (Or.inr ⟨v, hv, hvp, hvid⟩)

/-- C2 counterexample: with a vehicle whose `tripId` is the empty string and
an alert whose informed entity names that empty trip id, the claim's set
`{v.id : v.tripId named in informedEntities}` contains the vehicle, but the
computed `matchedVehicleIds` is empty — JS truthiness (`if (ie.tripId)`,
`if (v.tripId)`) skips empty-string ids, so the claimed equality fails. -/
theorem renfe_C2_counterexample :
    specMatchesAlert [cexC2Vehicle] cexC2Alert "V" ∧
    (mkCorrelation (buildIndices [cexC2Vehicle]) 0
        cexC2Alert).matchedVehicleIds = [] := by
  constructor
  · exact Or.inl ⟨cexC2Vehicle, List.mem_cons_self .., rfl, "", rfl,
      ⟨none, none, some "", none⟩, List.mem_cons_self .., rfl⟩
  · simp +decide [mkCorrelation, buildIndices, indexStep, sortStrings,
      unionIndexed, alertTripIds, alertRouteIds, setAdd, mapGetD, mapSet,
      cexC2Vehicle, cexC2Alert, List.mergeSort, List.merge]

/-- C2 (amended): for every alert and vehicle list, the computed correlation's
`matchedVehicleIds` is exactly the set of ids of vehicles sharing a *non-empty*
trip id or a *non-empty* route id with the alert's informed entities (empty
string ids are falsy in JS and treated as absent), deduplicated and sorted
strictly ascending, with `matchedVehicleCount` its size; the snapshot's
correlation list is (a reordering of) the per-alert correlations; an alert
with no informed entities yields an empty match set. -/
theorem renfe_C2_correlation_amended :
    (∀ (vehicles : List RenfeVehiclePositionDto) (generatedAt : Int)
        (a : RenfeAlertDto) (x : String),
      x ∈ (mkCorrelation (buildIndices vehicles) generatedAt
          a).matchedVehicleIds ↔
        ((∃ v ∈ vehicles, v.id = x ∧ ∃ t, v.tripId = some t ∧ t ≠ "" ∧
            ∃ ie ∈ a.informedEntities, ie.tripId = some t) ∨
         (∃ v ∈ vehicles, v.id = x ∧ ∃ r, v.routeId = some r ∧ r ≠ "" ∧
            ∃ ie ∈ a.informedEntities, ie.routeId = some r))) ∧
    (∀ (vehicles : List RenfeVehiclePositionDto) (generatedAt : Int)
        (a : RenfeAlertDto),
      (mkCorrelation (buildIndices vehicles) generatedAt
        a).matchedVehicleIds.Pairwise (· < ·)) ∧
    (∀ (vehicles : List RenfeVehiclePositionDto) (generatedAt : Int)
        (a : RenfeAlertDto),
      (mkCorrelation (buildIndices vehicles) generatedAt
          a).matchedVehicleCount =
        (mkCorrelation (buildIndices vehicles) generatedAt
          a).matchedVehicleIds.length) ∧
    (∀ (vehicles : List RenfeVehiclePositionDto) (alerts : List RenfeAlertDto)
        (generatedAt : Int),
      (getInsights vehicles alerts generatedAt).correlations.Perm
        (alerts.map (mkCorrelation (buildIndices vehicles) generatedAt))) ∧
    (mkCorrelation (buildIndices [exVehicle1, exVehicle2]) 500
        demoAlertNoEntities).matchedVehicleIds = [] := by
  refine ⟨mem_matchedVehicleIds, ?_, ?_, ?_, ?_⟩
  · intro vehicles generatedAt a
    simp only [mkCorrelation]
    exact sortStrings_strict
      (nodup_unionIndexed _ _ (nodup_unionIndexed _ _ (by simp)))
  · intro vehicles generatedAt a
    rfl
  · intro vehicles alerts generatedAt
    simp only [getInsights]
    exact List.mergeSort_perm _ _
  · simp +decide [mkCorrelation, buildIndices, indexStep, sortStrings,
      unionIndexed, alertTripIds, alertRouteIds, setAdd, mapGetD, mapSet,
      exVehicle1, exVehicle2, demoAlertNoEntities, List.mergeSort, List.merge]

/-! ## Claim C6: the derived totals -/

theorem mem_matchedSet_fold (L : List RenfeAlertVehicleCorrelationDto)
    (init : List String) (x : String) :
    (x ∈ L.foldl (fun s c => c.matchedVehicleIds.foldl setAdd s) init ↔
      x ∈ init ∨ ∃ c ∈ L, x ∈ c.matchedVehicleIds) := by
  induction L generalizing init with
  | nil => simp
  | cons c rest ih =>
    simp only [List.foldl_cons]
    rw [ih, mem_foldl_setAdd]
    constructor
    · rintro ((hx | hc) | ⟨c', hc', hx⟩)
      · exact Or.inl hx
      · exact Or.inr ⟨c, List.mem_cons_self .., hc⟩
      · exact Or.inr ⟨c', List.mem_cons_of_mem _ hc', hx⟩
    · rintro (hx | ⟨c', hc', hx⟩)
      · exact Or.inl (Or.inl hx)
      · rcases List.mem_cons.mp hc' with rfl | hw
        · exact Or.inl (Or.inr hx)
        · exact Or.inr ⟨c', hw, hx⟩

theorem nodup_matchedSet_fold (L : List RenfeAlertVehicleCorrelationDto)
    {init : List String} (h : init.Nodup) :
    (L.foldl (fun s c => c.matchedVehicleIds.foldl setAdd s) init).Nodup := by
  induction L generalizing init with
  | nil => exact h
  | cons c rest ih =>
    simp only [List.foldl_cons]
    exact ih (nodup_foldl_setAdd _ h)

/-- C6: in every assembled insights snapshot, `totals.vehiclesMatched` is the
size of the union of all correlations' `matchedVehicleIds` (the length of the
deduplicated concatenation), and `totals.alertsWithMatches` is the number of
correlations with `matchedVehicleCount > 0`. -/
theorem renfe_C6_totals (vehicles : List RenfeVehiclePositionDto)
    (alerts : List RenfeAlertDto) (generatedAt : Int) :
    (getInsights vehicles alerts generatedAt).totals.vehiclesMatched =
      (((getInsights vehicles alerts generatedAt).correlations.flatMap
        fun c => c.matchedVehicleIds).dedup).length ∧
    (getInsights vehicles alerts generatedAt).totals.alertsWithMatches =
      ((getInsights vehicles alerts generatedAt).correlations.filter
        fun c => decide (0 < c.matchedVehicleCount)).length := by
  constructor
  · simp only [getInsights]
    refine List.Perm.length_eq
      ((List.perm_ext_iff_of_nodup ?_ (List.nodup_dedup _)).mpr ?_)
    · exact nodup_matchedSet_fold _ List.nodup_nil
    · intro x
      rw [mem_matchedSet_fold, List.mem_dedup, List.mem_flatMap]
      simp only [List.not_mem_nil, false_or, List.mem_mergeSort]
  · simp only [getInsights]
    exact ((List.mergeSort_perm _ _).filter _).length_eq.symm

/-! ## Claim C5: route summaries -/

theorem mem_foldl_guardAdd {β : Type} (f : β → Option String) (l : List β)
    (init : List String) (x : String) :
    (x ∈ l.foldl (fun s b => match f b with
        | some y => if y = "" then s else setAdd s y
        | none => s) init ↔
      x ∈ init ∨ (x ≠ "" ∧ ∃ b ∈ l, f b = some x)) := by
  induction l generalizing init with
  | nil => simp
  | cons b rest ih =>
    simp only [List.foldl_cons]
    rw [ih]
    have hstep : (x ∈ (match f b with
        | some y => if y = "" then init else setAdd init y
        | none => init) ↔ x ∈ init ∨ (x ≠ "" ∧ f b = some x)) := by
      rcases hfb : f b with _ | y
      · simp
      · by_cases h : y = ""
        · subst h
          simp only [if_pos rfl]
          constructor
          · exact Or.inl
          · rintro (hx | ⟨hne, heq⟩)
            · exact hx
            · exact absurd (Option.some.injEq .. ▸ heq).symm hne
        · simp only [if_neg h, mem_setAdd]
          constructor
          · rintro (hx | rfl)
            · exact Or.inl hx
            · exact Or.inr ⟨h, rfl⟩
          · rintro (hx | ⟨hne, heq⟩)
            · exact Or.inl hx
            · exact Or.inr (Option.some.injEq .. ▸ heq).symm
    rw [hstep]
    constructor
    · rintro ((hx | hp) | ⟨hne, b', hb', hp⟩)
      · exact Or.inl hx
      · exact Or.inr ⟨hp.1, b, List.mem_cons_self .., hp.2⟩
      · exact Or.inr ⟨hne, b', List.mem_cons_of_mem _ hb', hp⟩
    · rintro (hx | ⟨hne, b', hb', hp⟩)
      · exact Or.inl (Or.inl hx)
      · rcases List.mem_cons.mp hb' with rfl | hw
        · exact Or.inl (Or.inr ⟨hne, hp⟩)
        · exact Or.inr ⟨hne, b', hw, hp⟩

theorem nodup_foldl_guardAdd {β : Type} (f : β → Option String) (l : List β)
    {init : List String} (h : init.Nodup) :
    (l.foldl (fun s b => match f b with
        | some y => if y = "" then s else setAdd s y
        | none => s) init).Nodup := by
  induction l generalizing init with
  | nil => exact h
  | cons b rest ih =>
    simp only [List.foldl_cons]
    refine ih ?_
    rcases hfb : f b with _ | y
    · exact h
    · show (if y = "" then init else setAdd init y).Nodup
      by_cases hy : y = ""
      · rwa [if_pos hy]
      · rw [if_neg hy]
        exact nodup_setAdd h

theorem mem_alertsRouteFold (alerts : List RenfeAlertDto)
    (init : List String) (r : String) :
    (r ∈ alerts.foldl (fun s a =>
        a.informedEntities.foldl (fun s ie => match ie.routeId with
          | some r => if r = "" then s else setAdd s r
          | none => s) s) init ↔
      r ∈ init ∨ (r ≠ "" ∧ ∃ a ∈ alerts, ∃ ie ∈ a.informedEntities,
        ie.routeId = some r)) := by
  induction alerts generalizing init with
  | nil => simp
  | cons a rest ih =>
    simp only [List.foldl_cons]
    rw [ih]
    have hstep : (r ∈ a.informedEntities.foldl
        (fun s ie => match ie.routeId with
          | some r => if r = "" then s else setAdd s r
          | none => s) init ↔
        r ∈ init ∨ (r ≠ "" ∧ ∃ ie ∈ a.informedEntities,
          ie.routeId = some r)) :=
      mem_foldl_guardAdd (fun ie => ie.routeId) a.informedEntities init r
    rw [hstep]
    constructor
    · rintro ((hx | ⟨hne, ie, hie, hp⟩) | ⟨hne, a', ha', ie, hie, hp⟩)
      · exact Or.inl hx
      · exact Or.inr ⟨hne, a, List.mem_cons_self .., ie, hie, hp⟩
      · exact Or.inr ⟨hne, a', List.mem_cons_of_mem _ ha', ie, hie, hp⟩
    · rintro (hx | ⟨hne, a', ha', ie, hie, hp⟩)
      · exact Or.inl (Or.inl hx)
      · rcases List.mem_cons.mp ha' with rfl | hw
        · exact Or.inl (Or.inr ⟨hne, ie, hie, hp⟩)
        · exact Or.inr ⟨hne, a', hw, ie, hie, hp⟩

theorem nodup_alertsRouteFold (alerts : List RenfeAlertDto)
    {init : List String} (h : init.Nodup) :
    (alerts.foldl (fun s a =>
      a.informedEntities.foldl (fun s ie => match ie.routeId with
        | some r => if r = "" then s else setAdd s r
        | none => s) s) init).Nodup := by
  induction alerts generalizing init with
  | nil => exact h
  | cons a rest ih =>
    simp only [List.foldl_cons]
    exact ih (nodup_foldl_guardAdd (fun ie => ie.routeId) a.informedEntities h)

theorem mem_allRouteIdsOf (vehicles : List RenfeVehiclePositionDto)
    (alerts : List RenfeAlertDto) (r : String) :
    r ∈ allRouteIdsOf vehicles alerts ↔
      r ≠ "" ∧ ((∃ v ∈ vehicles, v.routeId = some r) ∨
        (∃ a ∈ alerts, ∃ ie ∈ a.informedEntities, ie.routeId = some r)) := by
  have h1 : (r ∈ vehicles.foldl (fun s v => match v.routeId with
      | some r => if r = "" then s else setAdd s r
      | none => s) [] ↔
      r ∈ ([] : List String) ∨
        (r ≠ "" ∧ ∃ v ∈ vehicles, v.routeId = some r)) :=
    mem_foldl_guardAdd (fun v => v.routeId) vehicles [] r
  simp only [allRouteIdsOf]
  rw [mem_alertsRouteFold, h1]
  simp only [List.not_mem_nil, false_or]
  exact and_or_left.symm

theorem nodup_allRouteIdsOf (vehicles : List RenfeVehiclePositionDto)
    (alerts : List RenfeAlertDto) : (allRouteIdsOf vehicles alerts).Nodup := by
  simp only [allRouteIdsOf]
  exact nodup_alertsRouteFold alerts
    (nodup_foldl_guardAdd (fun v => v.routeId) vehicles List.nodup_nil)

theorem mkRouteSummary_vehicleCount (vehicles : List RenfeVehiclePositionDto)
    (alerts : List RenfeAlertDto) (generatedAt : Int) (r : String)
    (hr : r ≠ "") :
    (mkRouteSummary (buildIndices vehicles) alerts generatedAt r).vehicleCount
      = ((vehicles.filterMap fun v =>
          if v.routeId = some r then some v.id else none).dedup).length := by
  simp only [mkRouteSummary, buildIndices]
  refine List.Perm.length_eq
    ((List.perm_ext_iff_of_nodup ?_ (List.nodup_dedup _)).mpr ?_)
  · exact nodup_route_index vehicles _ (fun r' => by simp [mapGetD]) r
  · intro x
    rw [List.mem_dedup, List.mem_filterMap,
      mem_route_index vehicles _ r x hr]
    simp only [mapGetD, List.not_mem_nil, false_or]
    constructor
    · rintro ⟨v, hv, hvr, hvid⟩
      exact ⟨v, hv, by simp [hvr, hvid]⟩
    · rintro ⟨v, hv, hcond⟩
      by_cases h : v.routeId = some r
      · rw [if_pos h, Option.some.injEq] at hcond
        exact ⟨v, hv, h, hcond⟩
      · rw [if_neg h] at hcond
        cases hcond

theorem mkRouteSummary_effects (idx : VehicleIndices)
    (alerts : List RenfeAlertDto) (generatedAt : Int) (r : String) :
    (mkRouteSummary idx alerts generatedAt r).effects.Nodup ∧
    ∀ e, (e ∈ (mkRouteSummary idx alerts generatedAt r).effects ↔
      ∃ a ∈ alerts, (a.informedEntities.any fun ie =>
        ie.routeId == some r) = true ∧ a.effect = some e) := by
  constructor
  · simp only [mkRouteSummary]
    exact nodup_foldl_setAdd _ List.nodup_nil
  · intro e
    simp only [mkRouteSummary]
    rw [mem_foldl_setAdd]
    simp only [List.not_mem_nil, false_or, List.mem_filterMap,
      List.mem_filter]
    constructor
    · rintro ⟨a, ⟨ha, hcond⟩, heff⟩
      exact ⟨a, ha, hcond, heff⟩
    · rintro ⟨a, ha, hcond, heff⟩
      exact ⟨a, ⟨ha, hcond⟩, heff⟩

theorem mkRouteSummary_lastUpdate (vehicles : List RenfeVehiclePositionDto)
    (alerts : List RenfeAlertDto) (generatedAt : Int) (r : String) :
    (mkRouteSummary (buildIndices vehicles) alerts generatedAt
        r).lastVehicleUpdate =
      (vehicles.filterMap fun v =>
        match v.routeId, v.timestamp with
        | some r', some u => if r' = r ∧ r' ≠ "" ∧ u ≠ 0 then some u else none
        | _, _ => none).max? := by
  simp only [mkRouteSummary, buildIndices]
  rw [ts_index_eq]
  simp [mapGetD]

/-- C5 counterexample: with a vehicle on route `R1` whose timestamp is `0` and
a vehicle whose route id is the empty string, the computed summary list has a
single entry, for `R1`, with `lastVehicleUpdate = none` — although route `""`
is observed in the vehicles (the claim demands one entry per observed route)
and `R1` has a vehicle timestamp, namely `0`, whose maximum the claim says
`lastVehicleUpdate` should report.  JS truthiness (`if (v.routeId)`,
`if (v.timestamp)`) drops both. -/
theorem renfe_C5_counterexample :
    (getInsights [cexC5Vehicle, cexC5VehicleEmptyRoute] [] 500).routeSummaries
      = [⟨"R1", 1, 0, 0, [], none⟩] ∧
    (∃ v ∈ [cexC5Vehicle, cexC5VehicleEmptyRoute], v.routeId = some "") ∧
    (∃ v ∈ [cexC5Vehicle, cexC5VehicleEmptyRoute],
      v.routeId = some "R1" ∧ v.timestamp = some 0) := by
  refine ⟨?_,
    ⟨cexC5VehicleEmptyRoute,
      List.mem_cons_of_mem _ (List.mem_cons_self ..), rfl⟩,
    ⟨cexC5Vehicle, List.mem_cons_self .., rfl, rfl⟩⟩
  simp +decide [getInsights, buildIndices, indexStep, allRouteIdsOf,
    mkRouteSummary, mkCorrelation, setAdd, mapGetD, mapSet, isActiveAt,
    List.mergeSort, List.merge, List.max?, cexC5Vehicle,
    cexC5VehicleEmptyRoute, alertTripIds, alertRouteIds, unionIndexed,
    sortStrings]

/-- C5 (amended): the route summary list has one entry per *non-empty* route
id observed in vehicles or alert informed entities (empty-string route ids are
JS-falsy and ignored); each entry counts distinct vehicle ids on that route,
alerts informing that route, the active ones at the reference instant, the
distinct non-null effects, and the maximum over the *present, non-zero*
vehicle timestamps of that route (`none` if there are none; a timestamp of `0`
is treated as absent); the list is sorted descending by `alertCount`.  On the
spec's concrete scenario the `R1` summary is `⟨1, 1, 1⟩`. -/
theorem renfe_C5_routeSummaries_amended :
    (∀ (vehicles : List RenfeVehiclePositionDto) (alerts : List RenfeAlertDto)
        (generatedAt : Int),
      (((getInsights vehicles alerts generatedAt).routeSummaries.map
        fun s => s.routeId).Nodup) ∧
      (∀ r, r ∈ (getInsights vehicles alerts generatedAt).routeSummaries.map
          (fun s => s.routeId) ↔
        r ≠ "" ∧ ((∃ v ∈ vehicles, v.routeId = some r) ∨
          (∃ a ∈ alerts, ∃ ie ∈ a.informedEntities,
            ie.routeId = some r))) ∧
      (∀ s ∈ (getInsights vehicles alerts generatedAt).routeSummaries,
        s.vehicleCount = ((vehicles.filterMap fun v =>
          if v.routeId = some s.routeId then some v.id else
            none).dedup).length ∧
        s.alertCount = (alerts.filter fun a =>
          a.informedEntities.any fun ie =>
            ie.routeId == some s.routeId).length ∧
        s.activeAlertCount = ((alerts.filter fun a =>
          a.informedEntities.any fun ie =>
            ie.routeId == some s.routeId).filter fun a =>
              isActiveAt a.start a.end_ generatedAt).length ∧
        s.effects.Nodup ∧
        (∀ e, e ∈ s.effects ↔ ∃ a ∈ alerts,
          (a.informedEntities.any fun ie =>
            ie.routeId == some s.routeId) = true ∧ a.effect = some e) ∧
        s.lastVehicleUpdate = (vehicles.filterMap fun v =>
          match v.routeId, v.timestamp with
          | some r', some u =>
            if r' = s.routeId ∧ r' ≠ "" ∧ u ≠ 0 then some u else none
          | _, _ => none).max?) ∧
      ((getInsights vehicles alerts generatedAt).routeSummaries.Pairwise
        fun x y => y.alertCount ≤ x.alertCount)) ∧
    (getInsights [exVehicle1, exVehicle2] [exAlert1] 500).routeSummaries =
      [⟨"R1", 1, 1, 1, [], none⟩, ⟨"R2", 1, 0, 0, [], none⟩] := by
  constructor
  · intro vehicles alerts generatedAt
    have hrs : (getInsights vehicles alerts generatedAt).routeSummaries =
        ((allRouteIdsOf vehicles alerts).map
          (mkRouteSummary (buildIndices vehicles) alerts
            generatedAt)).mergeSort
          (fun a b => decide (b.alertCount ≤ a.alertCount)) := rfl
    refine ⟨?_, ?_, ?_, ?_⟩
    · rw [hrs]
      refine ((List.mergeSort_perm _ _).map
        fun s : RenfeRouteSummaryDto => s.routeId).nodup_iff.mpr ?_
      rw [List.map_map]
      show ((allRouteIdsOf vehicles alerts).map fun r => r).Nodup
      simpa using nodup_allRouteIdsOf vehicles alerts
    · intro r
      rw [hrs]
      simp only [List.mem_map, List.mem_mergeSort]
      constructor
      · rintro ⟨s, ⟨r', hr', rfl⟩, rfl⟩
        exact (mem_allRouteIdsOf vehicles alerts r').mp hr'
      · intro h
        exact ⟨mkRouteSummary (buildIndices vehicles) alerts generatedAt r,
          ⟨r, (mem_allRouteIdsOf vehicles alerts r).mpr h, rfl⟩, rfl⟩
    · intro s hs
      rw [hrs] at hs
      simp only [List.mem_mergeSort, List.mem_map] at hs
      obtain ⟨r, hr, rfl⟩ := hs
      have hrne : r ≠ "" := ((mem_allRouteIdsOf vehicles alerts r).mp hr).1
      exact ⟨mkRouteSummary_vehicleCount vehicles alerts generatedAt r hrne,
        rfl, rfl,
        (mkRouteSummary_effects (buildIndices vehicles) alerts generatedAt
          r).1,
        (mkRouteSummary_effects (buildIndices vehicles) alerts generatedAt
          r).2,
        mkRouteSummary_lastUpdate vehicles alerts generatedAt r⟩
    · rw [hrs]
      have hs := @List.sorted_mergeSort RenfeRouteSummaryDto
        (fun a b => decide (b.alertCount ≤ a.alertCount))
        (fun a b c hab hbc => by
          simp only [decide_eq_true_eq] at *
          exact le_trans hbc hab)
        (fun a b => by
          simp only [Bool.or_eq_true, decide_eq_true_eq]
          exact le_total b.alertCount a.alertCount)
        ((allRouteIdsOf vehicles alerts).map
          (mkRouteSummary (buildIndices vehicles) alerts generatedAt))
      exact hs.imp fun h => of_decide_eq_true h
  · simp +decide [getInsights, buildIndices, indexStep, allRouteIdsOf,
      mkRouteSummary, mkCorrelation, setAdd, mapGetD, mapSet, isActiveAt,
      List.mergeSort, List.merge, List.max?, exVehicle1, exVehicle2,
      exAlert1, alertTripIds, alertRouteIds, unionIndexed, sortStrings]

/-- Witness for `renfe_C5_routeSummaries_amended`, extracting the `R1` field
equations of the spec scenario at a concrete input. -/
theorem renfe_C5_routeSummaries_witness :
    ((getInsights [exVehicle1, exVehicle2] [exAlert1] 500).routeSummaries.map
      fun s => s.routeId).Nodup ∧
    (⟨"R1", 1, 1, 1, [], none⟩ : RenfeRouteSummaryDto).vehicleCount =
      (([exVehicle1, exVehicle2].filterMap fun v =>
        if v.routeId = some "R1" then some v.id else none).dedup).length := by
  have h := renfe_C5_routeSummaries_amended
  refine ⟨(h.1 [exVehicle1, exVehicle2] [exAlert1] 500).1, ?_⟩
  have hmem : (⟨"R1", 1, 1, 1, [], none⟩ : RenfeRouteSummaryDto) ∈
      (getInsights [exVehicle1, exVehicle2] [exAlert1]
        500).routeSummaries := by
    rw [h.2]
    exact List.mem_cons_self ..
  exact ((h.1 [exVehicle1, exVehicle2] [exAlert1] 500).2.2.1 _ hmem).1

/-! ## Claim C8: snapshot round trip -/

theorem find?_mapSet_self {β : Type} (m : List (String × β)) (k : String)
    (v : β) :
    (mapSet m k v).find? (fun p => p.1 == k) = some (k, v) := by
  induction m with
  | nil => simp [mapSet, List.find?]
  | cons p rest ih =>
    obtain ⟨a, b⟩ := p
    by_cases h : a = k
    · subst h
      simp [mapSet, List.find?]
    · simp only [mapSet, if_neg h]
      rw [List.find?_cons_of_neg _ (by simpa using h)]
      exact ih

theorem fsRead_fsWrite (files : List (String × StoredSnapshot)) (k : String)
    (v : StoredSnapshot) : fsRead (fsWrite files k v) k = some v := by
  simp [fsRead, fsWrite, find?_mapSet_self]

/-- C8: capturing (storing) a snapshot and loading it back by the returned id
yields an entry whose totals, reduced vehicle records and reduced alert
records equal what was captured — provided the generated id is fresh, which
the timestamp-plus-random-suffix scheme is designed to guarantee. -/
theorem renfe_C8_roundtrip (st : HistoryState) (insights : RenfeInsightsDto)
    (vehicles : List RenfeVehiclePositionDto) (alerts : List RenfeAlertDto)
    (timestampNow : Int) (randSuffix : String)
    (hfresh : ∀ e ∈ (loadIndex st).snapshots,
      e.id ≠ some (toString timestampNow ++ "-" ++ randSuffix)) :
    loadSnapshotById
        (storeSnapshot st insights vehicles alerts timestampNow randSuffix).2
        (storeSnapshot st insights vehicles alerts timestampNow
          randSuffix).1 =
      some
        { id := toString timestampNow ++ "-" ++ randSuffix
          timestamp := timestampNow
          totals := insights.totals
          alertsByEffect := insights.alertsByEffect
          alertsByCause := insights.alertsByCause
          vehiclesByStatus := insights.vehiclesByStatus
          vehicles := vehicles.map reduceVehicle
          alerts := alerts.map reduceAlert } := by
  have hfind : ((st.indexFile.getD ⟨[]⟩).snapshots ++
      [({ id := some (toString timestampNow ++ "-" ++ randSuffix)
          timestamp := timestampNow
          filename := "snapshot-" ++
            (toString timestampNow ++ "-" ++ randSuffix) ++ ".json"
          vehicleCount := some vehicles.length
          alertCount := some alerts.length } : HistoryIndexEntry)]).find?
        (fun s => s.id ==
          some (toString timestampNow ++ "-" ++ randSuffix)) =
      some
        ({ id := some (toString timestampNow ++ "-" ++ randSuffix)
           timestamp := timestampNow
           filename := "snapshot-" ++
             (toString timestampNow ++ "-" ++ randSuffix) ++ ".json"
           vehicleCount := some vehicles.length
           alertCount := some alerts.length } : HistoryIndexEntry) := by
    rw [List.find?_append]
    have h1 : (st.indexFile.getD ⟨[]⟩).snapshots.find?
        (fun s => s.id ==
          some (toString timestampNow ++ "-" ++ randSuffix)) = none :=
      List.find?_eq_none.mpr fun e he => by
        simp only [beq_iff_eq]
        exact hfresh e he
    rw [h1]
    simp [List.find?]
  simp only [storeSnapshot, loadSnapshotById, loadIndex, Option.getD_some]
  rw [hfind]
  simp [fsRead_fsWrite]

/-- Witness for `renfe_C8_roundtrip`: a concrete capture into an empty store,
loaded back by the returned id. -/
theorem renfe_C8_roundtrip_witness :
    loadSnapshotById
        (storeSnapshot ⟨[], none⟩ demoInsights [exVehicle1] [exAlert1] 1000
          "abcd1234").2
        (storeSnapshot ⟨[], none⟩ demoInsights [exVehicle1] [exAlert1] 1000
          "abcd1234").1 =
      some
        { id := toString (1000 : Int) ++ "-" ++ "abcd1234"
          timestamp := 1000
          totals := demoInsights.totals
          alertsByEffect := demoInsights.alertsByEffect
          alertsByCause := demoInsights.alertsByCause
          vehiclesByStatus := demoInsights.vehiclesByStatus
          vehicles := [exVehicle1].map reduceVehicle
          alerts := [exAlert1].map reduceAlert } := by
  exact renfe_C8_roundtrip ⟨[], none⟩ demoInsights [exVehicle1] [exAlert1]
    1000 "abcd1234" (by intro e he; simp [loadIndex] at he)

/-! ## Claim C9: retention cleanup -/

theorem cleanup_fold (entries : List HistoryIndexEntry) :
    ∀ (files : List (String × StoredSnapshot)) (c : Nat),
    (∀ e ∈ entries, fileExists files e.filename = true) →
    ((entries.map fun e => e.filename).Nodup) →
    entries.foldl (fun (acc : List (String × StoredSnapshot) × Nat) entry =>
      if fileExists acc.1 entry.filename then
        (fsDelete acc.1 entry.filename, acc.2 + 1)
      else acc) (files, c) =
      (files.filter fun p =>
        decide (p.1 ∉ entries.map fun e => e.filename),
        c + entries.length) := by
  induction entries with
  | nil =>
    intro files c _ _
    simp
  | cons e rest ih =>
    intro files c hex hnd
    simp only [List.foldl_cons]
    rw [if_pos (hex e (List.mem_cons_self ..))]
    have hnd' : (e.filename :: rest.map fun e => e.filename).Nodup := by
      simpa using hnd
    have hne : ∀ e' ∈ rest, e'.filename ≠ e.filename := by
      intro e' he' hcontr
      exact (List.nodup_cons.mp hnd').1
        (by rw [← hcontr]; exact List.mem_map.mpr ⟨e', he', rfl⟩)
    have hex' : ∀ e' ∈ rest,
        fileExists (fsDelete files e.filename) e'.filename = true := by
      intro e' he'
      have hold := hex e' (List.mem_cons_of_mem _ he')
      rw [fileExists, List.any_eq_true] at hold ⊢
      obtain ⟨p, hp, hpk⟩ := hold
      refine ⟨p, ?_, hpk⟩
      rw [fsDelete, List.mem_filter]
      refine ⟨hp, ?_⟩
      have hp1 : p.1 = e'.filename := by simpa using hpk
      simp [hp1, hne e' he']
    rw [ih (fsDelete files e.filename) (c + 1) hex'
      (List.nodup_cons.mp hnd').2]
    refine Prod.ext ?_ ?_
    · show ((fsDelete files e.filename).filter _) = _
      rw [fsDelete, List.filter_filter]
      refine List.filter_congr ?_
      intro p hp
      by_cases h1 : p.1 = e.filename <;>
        by_cases h2 : p.1 ∈ rest.map fun e => e.filename <;>
        simp [h1, h2]
    · show c + 1 + rest.length = c + (rest.length + 1)
      omega

/-- C9: the retention cleanup computes `cutoff = now − keepDays` (in days),
deletes the blobs of exactly the index entries older than the cutoff, rewrites
the index with only the entries at/after the cutoff, and returns the number of
deleted entries — under the store's standing invariant that every index entry
has a stored blob and filenames are unique. -/
theorem renfe_C9_cleanup (st : HistoryState) (keepDays now : Int)
    (hex : ∀ e ∈ (loadIndex st).snapshots,
      fileExists st.files e.filename = true)
    (hnd : (((loadIndex st).snapshots.map fun e => e.filename)).Nodup) :
    (cleanupOldSnapshots st keepDays now).1 =
      ((loadIndex st).snapshots.filter fun s =>
        decide (s.timestamp < now - keepDays * 24 * 60 * 60)).length ∧
    loadIndex (cleanupOldSnapshots st keepDays now).2 =
      ⟨(loadIndex st).snapshots.filter fun s =>
        decide (now - keepDays * 24 * 60 * 60 ≤ s.timestamp)⟩ ∧
    (cleanupOldSnapshots st keepDays now).2.files =
      st.files.filter fun p => decide (p.1 ∉
        (((loadIndex st).snapshots.filter fun s =>
          decide (s.timestamp < now - keepDays * 24 * 60 * 60)).map
            fun e => e.filename)) := by
  have hex' : ∀ e ∈ (loadIndex st).snapshots.filter fun s =>
      decide (s.timestamp < now - keepDays * 24 * 60 * 60),
      fileExists st.files e.filename = true :=
    fun e he => hex e (List.mem_of_mem_filter he)
  have hnd' : ((((loadIndex st).snapshots.filter fun s =>
      decide (s.timestamp < now - keepDays * 24 * 60 * 60)).map
        fun e => e.filename)).Nodup :=
    ((List.filter_sublist _).map fun e : HistoryIndexEntry =>
      e.filename).nodup hnd
  have hfold := cleanup_fold
    ((loadIndex st).snapshots.filter fun s =>
      decide (s.timestamp < now - keepDays * 24 * 60 * 60))
    st.files 0 hex' hnd'
  simp only [cleanupOldSnapshots]
  rw [hfold]
  exact ⟨by simp, rfl, rfl⟩

/-- Witness for `renfe_C9_cleanup`: the spec's retention scenario — entries 40,
20 and 1 days old with a 30-day keep window delete exactly the oldest entry
and report a count of 1. -/
theorem renfe_C9_cleanup_witness :
    (cleanupOldSnapshots demoRetentionState 30 (86400 * 100)).1 = 1 ∧
    loadIndex (cleanupOldSnapshots demoRetentionState 30 (86400 * 100)).2 =
      ⟨[demoEntry (86400 * 80) "mid", demoEntry (86400 * 99) "new"]⟩ := by
  have h := renfe_C9_cleanup demoRetentionState 30 (86400 * 100)
    (by decide) (by decide)
  refine ⟨?_, ?_⟩
  · rw [h.1]
    decide
  · rw [h.2.1]
    decide

/-! ## Claim C10: the controller's snapshot activity predicate -/

/-- C10: in the `GET renfe/history/snapshots/:id` response each returned
alert's `isActive` is true iff its start is non-null with start ≤ now and
(end is null or end > now); a null start is always reported inactive and an
end equal to the request instant is reported inactive — a strictly different
predicate from the engine's `isActiveAt`, which treats a null start as active
and uses `end ≥ now`. -/
theorem renfe_C10_snapshot_isActive :
    (∀ (st : HistoryState) (id : String) (now : Int),
      getSnapshotById st id now =
        (loadSnapshotById st id).map fun s =>
          buildSnapshotByIdResponse s now) ∧
    (∀ (snapshot : HistorySnapshot) (now : Int),
      (buildSnapshotByIdResponse snapshot now).alerts =
        snapshot.alerts.map fun a =>
          ⟨a.id, a.header, a.effect,
            snapshotAlertIsActive a.start a.end_ now⟩) ∧
    (∀ (s e : Option Int) (now : Int),
      snapshotAlertIsActive s e now = true ↔
        ((∃ v, s = some v ∧ v ≤ now) ∧
         (e = none ∨ ∃ w, e = some w ∧ now < w))) ∧
    (∀ (e : Option Int) (now : Int),
      snapshotAlertIsActive none e now = false) ∧
    (∀ (s : Option Int) (now : Int),
      snapshotAlertIsActive s (some now) now = false) ∧
    (snapshotAlertIsActive none none 0 = false ∧
      isActiveAt none none 0 = true) ∧
    (snapshotAlertIsActive (some 0) (some 5) 5 = false ∧
      isActiveAt (some 0) (some 5) 5 = true) := by
  refine ⟨fun st id now => rfl, fun snapshot now => rfl, ?_, ?_, ?_,
    by decide, by decide⟩
  · intro s e now
    cases s <;> cases e <;> simp [snapshotAlertIsActive]
  · intro e now
    rfl
  · intro s now
    cases s <;> simp [snapshotAlertIsActive]

/-! ## Claim C1: feed parsing and the failure mode -/

/-- C1 counterexample: the feed `cexC1Feed` is, as an envelope, perfectly
decodable (an object whose `entity` member is an array), and its single entity
merely fails shape validation (latitude 91 is out of range).  The claim says
such an entry is silently dropped rather than failing the whole batch, and
that the only hard failure is an undecodable envelope; but `FeedSchema`
validates every entity inside `safeParse`, so the whole fetch hard-fails. -/
theorem renfe_C1_counterexample :
    specEnvelopeDecodable cexC1Feed = true ∧
    getVehiclePositions cexC1Feed =
      Except.error "Invalid Renfe GTFS-RT JSON" := by
  exact ⟨rfl, rfl⟩

/-- C1 (amended): entities that pass the per-entity schema but lack a vehicle
position (vehicle feed) or an alert body (alerts feed) are silently dropped;
but an entry that fails the per-entity schema (e.g. out-of-range coordinates)
makes the whole `safeParse` fail, so the fetch hard-fails with the validation
error exactly when the top-level schema parse — which includes per-entity
validation — fails. -/
theorem renfe_C1_parsing_amended :
    (∀ j : Json,
      (∃ es, parseFeed j = some es ∧
        getVehiclePositions j =
          .ok (es.filterMap entityToVehiclePosition)) ∨
      (parseFeed j = none ∧
        getVehiclePositions j = .error "Invalid Renfe GTFS-RT JSON")) ∧
    (∀ j : Json,
      (∃ es, parseAlertsFeed j = some es ∧
        getAlerts j = .ok (es.filterMap alertsEntityToAlert)) ∨
      (parseAlertsFeed j = none ∧
        getAlerts j = .error "Invalid Renfe GTFS-RT alerts JSON")) ∧
    (∀ e : FeedEntity, entityToVehiclePosition e = none ↔
      (e.vehicle.bind fun veh => veh.position) = none) ∧
    (∀ e : AlertsFeedEntity, alertsEntityToAlert e = none ↔
      e.alert = none) ∧
    getVehiclePositions demoC1Feed =
      .ok [{ id := "a", label := none, latitude := 1, longitude := 2,
             timestamp := none, tripId := none, routeId := none,
             currentStatus := none }] ∧
    getAlerts demoC1AlertsFeed =
      .ok [{ id := "x", cause := none, effect := none, header := none,
             description := none, url := none, start := none, end_ := none,
             informedEntities := [] }] := by
  refine ⟨?_, ?_, ?_, ?_, rfl, rfl⟩
  · intro j
    cases h : parseFeed j with
    | none => exact Or.inr ⟨rfl, by simp [getVehiclePositions, h]⟩
    | some es => exact Or.inl ⟨es, rfl, by simp [getVehiclePositions, h]⟩
  · intro j
    cases h : parseAlertsFeed j with
    | none => exact Or.inr ⟨rfl, by simp [getAlerts, h]⟩
    | some es => exact Or.inl ⟨es, rfl, by simp [getAlerts, h]⟩
  · intro e
    obtain ⟨eid, v⟩ := e
    cases v with
    | none => simp [entityToVehiclePosition]
    | some veh =>
      obtain ⟨pos, ts, cs, tr, vd⟩ := veh
      cases pos <;> simp [entityToVehiclePosition]
  · intro e
    obtain ⟨eid, al⟩ := e
    cases al <;> simp [alertsEntityToAlert]
